import Mathlib

set_option maxRecDepth 100000

/-!
Shallow embedding of the streaming parser (`src/core/parse.c`) and of the two
bytecode-compiler copies (`src/compiler/compile.c`, the array-of-scopes
version, and `src/core/compile.c`, the linked-scope version) of this
repository, together with proofs about the behaviour claimed by the
specification.

Modelling conventions, used throughout:
* machine integers are `Nat`/`Int` with explicit `% 2 ^ 32` where a C
  computation can wrap; bytes are `Nat` values below 256;
* growable `dst_v` vectors and the parser buffers are Lean lists; a NULL
  vector is the empty list;
* interned symbols are byte lists: interning (src/core/symcache.c) makes C
  pointer equality coincide with byte equality, so symbol comparison is
  list equality;
* the parser state stack `p->states` and the compiler scope array
  `c->scopes` keep their top (innermost) element at the HEAD of the list,
  i.e. the list order is reversed with respect to the C array order;
* `janet_panic` / failed `dst_assert` are modelled by returning the input
  state together with a panic message, so a panicking call visibly leaves
  the state unchanged.
-/

namespace JanetValue

/-- Janet/dst values (tagged union from the headers).  Numbers are modelled
as `Int`: the number scanner of the repository is not under `src/` and no
claim depends on numeric details.  Tuples carry source-mapping metadata
(line and column, initialised to -1 by `janet_tuple_begin`) and a flag
word.  Structs and tables are association lists in insertion order; the
canonical hash ordering of `janet_struct_put` lives in a file that is not
under `src/` and is not modelled. -/
inductive JanetV where
  | nil
  | boolean (b : Bool)
  | number (n : Int)
  | str (bytes : List Nat)
  | sym (bytes : List Nat)
  | keyword (bytes : List Nat)
  | buffer (bytes : List Nat)
  | tuple (elems : List JanetV) (smLine smCol : Int) (flag : Nat)
  | array (elems : List JanetV)
  | struct (kvs : List (JanetV × JanetV))
  | table (kvs : List (JanetV × JanetV))
deriving Repr

end JanetValue

namespace CoreParse

open JanetValue

/-- `is_whitespace` from src/core/parse.c lines 29-37: space, tab, LF, CR,
NUL, vertical tab, form feed.  (Comma and semicolon are NOT whitespace in
this parser; compare `DstParse.is_whitespace` from the superseded copy.) -/
def is_whitespace (c : Nat) : Bool :=
  c == 32 || c == 9 || c == 10 || c == 13 || c == 0 || c == 11 || c == 12

/-- The 256-bit symbol-character table from src/core/parse.c lines 44-47. -/
def symchars : List Nat :=
  [0x00000000, 0xf7ffec72, 0xc7ffffff, 0x07fffffe,
   0xffffffff, 0xffffffff, 0xffffffff, 0xffffffff]

/-- `is_symbol_char` from src/core/parse.c lines 51-53:
`symchars[c >> 5] & (1 << (c & 0x1F))`. -/
def is_symbol_char (c : Nat) : Bool :=
  (symchars.getD (c >>> 5) 0).testBit (c % 32)

/-- `valid_utf8` from src/core/parse.c lines 58-89: 1-4 byte sequences,
well-formed continuation bytes, overlong encodings rejected. -/
def valid_utf8 : List Nat → Bool
  | [] => true
  | c :: rest =>
    if c < 0x80 then valid_utf8 rest
    else if c >>> 5 == 0x06 then
      match rest with
      | c1 :: rest2 =>
        decide (c1 >>> 6 = 2) && decide (0xC2 ≤ c) && valid_utf8 rest2
      | [] => false
    else if c >>> 4 == 0x0E then
      match rest with
      | c1 :: c2 :: rest3 =>
        decide (c1 >>> 6 = 2) && decide (c2 >>> 6 = 2) &&
        (decide (c ≠ 0xE0) || decide (0xA0 ≤ c1)) && valid_utf8 rest3
      | _ => false
    else if c >>> 3 == 0x1E then
      match rest with
      | c1 :: c2 :: c3 :: rest4 =>
        decide (c1 >>> 6 = 2) && decide (c2 >>> 6 = 2) && decide (c3 >>> 6 = 2) &&
        (decide (c ≠ 0xF0) || decide (0x90 ≤ c1)) && valid_utf8 rest4
      | _ => false
    else false
termination_by l => l.length
decreasing_by all_goals simp_arith [List.length]

/-- `to_hex` from src/core/parse.c lines 92-102. -/
def to_hex (c : Nat) : Int :=
  if 48 ≤ c ∧ c ≤ 57 then (c : Int) - 48
  else if 65 ≤ c ∧ c ≤ 70 then 10 + (c : Int) - 65
  else if 97 ≤ c ∧ c ≤ 102 then 10 + (c : Int) - 97
  else -1

/-- Consumer tags, standing for the C function pointers stored in
`JanetParseState.consumer`. -/
inductive Consumer where
  | root
  | tokenchar
  | stringchar
  | escape1
  | escapeh
  | comment
  | longstring
  | atsign
deriving Repr, DecidableEq

/-- `struct JanetParseState` from src/core/parse.c lines 105-112.
`counter` and `argn` are `int32_t` in C but only ever hold small
nonnegative values, so they are modelled as `Nat`. -/
structure JanetParseState where
  counter : Nat
  argn : Nat
  flags : Nat
  line : Nat
  column : Nat
  consumer : Consumer
deriving Repr

/-- The parser object, src/core/parse.c.  `states` keeps the top frame at
the head of the list (reversed C array order). -/
structure JanetParser where
  args : List JanetV
  states : List JanetParseState
  buf : List Nat
  error : Option String
  lookback : Int
  line : Nat
  column : Nat
  pending : Nat
  flag : Bool
deriving Repr

def PFLAG_CONTAINER : Nat := 0x100
def PFLAG_BUFFER : Nat := 0x200
def PFLAG_PARENS : Nat := 0x400
def PFLAG_SQRBRACKETS : Nat := 0x800
def PFLAG_CURLYBRACKETS : Nat := 0x1000
def PFLAG_STRING : Nat := 0x2000
def PFLAG_LONGSTRING : Nat := 0x4000
def PFLAG_READERMAC : Nat := 0x8000
def PFLAG_ATSYM : Nat := 0x10000
def PFLAG_COMMENT : Nat := 0x20000
def PFLAG_TOKEN : Nat := 0x40000
def PFLAG_INSTRING : Nat := 0x100000
def PFLAG_END_CANDIDATE : Nat := 0x200000

/-- `push_buf`. -/
def push_buf (p : JanetParser) (x : Nat) : JanetParser :=
  { p with buf := p.buf ++ [x] }

/-- `push_arg`. -/
def push_arg (p : JanetParser) (x : JanetV) : JanetParser :=
  { p with args := p.args ++ [x] }

/-- `pushstate`: push a fresh frame recording the current line/column. -/
def pushstate (p : JanetParser) (consumer : Consumer) (flags : Nat) : JanetParser :=
  { p with states :=
      { counter := 0, argn := 0, flags := flags,
        line := p.line, column := p.column, consumer := consumer } :: p.states }

/-- Replace the top frame of the state stack (consumers mutate their frame
through the `state` pointer in C). -/
def setTop (p : JanetParser) (s : JanetParseState) : JanetParser :=
  { p with states := s :: p.states.tail }

/-- Stamp source-mapping info on a tuple value (no-op for other types),
as done by `popstate` when a value lands in a container frame. -/
def setTupleSm (v : JanetV) (l c : Int) : JanetV :=
  match v with
  | .tuple es _ _ fl => .tuple es l c fl
  | _ => v

/-- Byte strings of the reader-macro head symbols. -/
def readerMacName (c : Nat) : List Nat :=
  if c = 39 then [113, 117, 111, 116, 101]                         -- quote
  else if c = 44 then [117, 110, 113, 117, 111, 116, 101]          -- unquote
  else if c = 59 then [115, 112, 108, 105, 99, 101]                -- splice
  else if c = 124 then [115, 104, 111, 114, 116, 45, 102, 110]     -- short-fn
  else if c = 126 then [113, 117, 97, 115, 105, 113, 117, 111, 116, 101] -- quasiquote
  else [60, 117, 110, 107, 110, 111, 119, 110, 62]                 -- <unknown>

/-- `popstate` from src/core/parse.c lines 162-196: pop the top frame and
hand the finished value to the frame below; reader-macro frames wrap the
value in a two-element tuple and pop again. -/
def popstate (p : JanetParser) (val : JanetV) : JanetParser :=
  match h : p.states with
  | [] => p
  | [_] => p
  | top :: newtop :: rest2 =>
    if newtop.flags &&& PFLAG_CONTAINER ≠ 0 then
      let val := setTupleSm val (top.line : Int) (top.column : Int)
      let newtop' := { newtop with argn := newtop.argn + 1 }
      let pending' := if rest2.length = 0 then p.pending + 1 else p.pending
      { p with
          states := newtop' :: rest2, pending := pending',
          args := p.args ++ [val] }
    else if newtop.flags &&& PFLAG_READERMAC ≠ 0 then
      let c := newtop.flags &&& 0xFF
      let t := JanetV.tuple [JanetV.sym (readerMacName c), val]
                 (newtop.line : Int) (newtop.column : Int) 0
      popstate { p with states := newtop :: rest2 } t
    else
      { p with states := newtop :: rest2 }
termination_by p.states.length
decreasing_by simp [h]

/-- `checkescape` from src/core/parse.c lines 198-225 (-1 means invalid,
1 flags the beginning of a hex escape). -/
def checkescape (c : Nat) : Int :=
  if c = 120 then 1          -- x
  else if c = 110 then 10    -- n
  else if c = 116 then 9     -- t
  else if c = 114 then 13    -- r
  else if c = 48 then 0      -- 0
  else if c = 122 then 0     -- z
  else if c = 102 then 12    -- f
  else if c = 118 then 11    -- v
  else if c = 101 then 27    -- e
  else if c = 34 then 34     -- double quote
  else if c = 92 then 92     -- backslash
  else -1

/-- `longstring_strip`: the long-string branch of `stringend`
(src/core/parse.c lines 267-276): drop one leading and one trailing
newline adjacent to the fences. -/
def longstring_strip (buf : List Nat) : List Nat :=
  let b1 := if buf.head? = some 10 then buf.tail else buf
  if 0 < b1.length ∧ b1.getLast? = some 10 then b1.dropLast else b1

/-- `stringend` from src/core/parse.c lines 263-287.  Pops the string
frame, producing a string (or a buffer if the frame has the `@` flag). -/
def stringend (p : JanetParser) (state : JanetParseState) : JanetParser :=
  let content := if state.flags &&& PFLAG_LONGSTRING ≠ 0 then
      longstring_strip p.buf else p.buf
  let ret := if state.flags &&& PFLAG_BUFFER ≠ 0 then
      JanetV.buffer content else JanetV.str content
  popstate { p with buf := [] } ret

/-- `escapeh` from src/core/parse.c lines 230-244: two-hex-digit
accumulator (`argn` holds the partial value, `counter` the digits left). -/
def escapeh (p : JanetParser) (state : JanetParseState) (c : Nat) :
    Bool × JanetParser :=
  let digit := to_hex c
  if digit < 0 then
    (true, { p with error := some "invalid hex digit in hex escape" })
  else
    let argn' := state.argn * 16 + digit.toNat
    let counter' := state.counter - 1
    if counter' = 0 then
      let st' := { state with
          argn := 0, counter := counter', consumer := Consumer.stringchar }
      (true, push_buf (setTop p st') (argn' % 256))
    else
      (true, setTop p { state with argn := argn', counter := counter' })

/-- `escape1` from src/core/parse.c lines 246-261. -/
def escape1 (p : JanetParser) (state : JanetParseState) (c : Nat) :
    Bool × JanetParser :=
  let e := checkescape c
  if e < 0 then
    (true, { p with error := some "invalid string escape sequence" })
  else if c = 120 then
    (true, setTop p { state with counter := 2, argn := 0, consumer := .escapeh })
  else
    (true, push_buf (setTop p { state with consumer := .stringchar }) e.toNat)

/-- `stringchar` from src/core/parse.c lines 289-303: backslash enters the
escape state, a double quote ends the string, CR/LF are skipped. -/
def stringchar (p : JanetParser) (state : JanetParseState) (c : Nat) :
    Bool × JanetParser :=
  if c = 92 then (true, setTop p { state with consumer := .escape1 })
  else if c = 34 then (true, stringend p state)
  else if c ≠ 10 ∧ c ≠ 13 then (true, push_buf p c)
  else (true, p)

/-- Modelled from the spec: `janet_scan_number` is declared in
src/include/janet/janet.h but its definition is not under `src/`.  The
spec only states that a token whose first byte is a digit, or `-`/`+`/`.`
followed by a digit, is scanned as a number.  Decimal integers with an
optional sign are modelled; no claim in this development exercises it. -/
def janet_scan_number (l : List Nat) : Option Int :=
  let (sign, digits) :=
    match l with
    | 45 :: rest => ((-1 : Int), rest)
    | 43 :: rest => ((1 : Int), rest)
    | _ => ((1 : Int), l)
  if digits ≠ [] ∧ digits.all (fun d => 48 ≤ d ∧ d ≤ 57) then
    some (sign * (digits.foldl (fun acc d => acc * 10 + ((d : Int) - 48)) 0))
  else none

/-- `tokenchar` from src/core/parse.c lines 318-364: accumulate symbol
characters; on a non-symbol byte classify the token (keyword, number,
`nil`/`true`/`false`, or symbol) and reconsume the byte. -/
def tokenchar (p : JanetParser) (state : JanetParseState) (c : Nat) :
    Bool × JanetParser :=
  if is_symbol_char c then
    (true, push_buf (if 127 < c then setTop p { state with argn := 1 } else p) c)
  else
    let b0 := p.buf.headD 0
    let startDig := 48 ≤ b0 ∧ b0 ≤ 57
    let startNum := startDig ∨ b0 = 45 ∨ b0 = 43 ∨ b0 = 46
    if b0 = 58 then
      let valid := state.argn = 0 ∨ valid_utf8 p.buf.tail
      if ¬ valid then
        (false, { p with error := some "invalid utf-8 in keyword" })
      else
        (false, popstate { p with buf := [] } (JanetV.keyword p.buf.tail))
    else if startNum ∧ (janet_scan_number p.buf).isSome then
      (false, popstate { p with buf := [] }
        (JanetV.number ((janet_scan_number p.buf).getD 0)))
    else if p.buf = [110, 105, 108] then
      (false, popstate { p with buf := [] } JanetV.nil)
    else if p.buf = [102, 97, 108, 115, 101] then
      (false, popstate { p with buf := [] } (JanetV.boolean false))
    else if p.buf = [116, 114, 117, 101] then
      (false, popstate { p with buf := [] } (JanetV.boolean true))
    else if startDig then
      (false, { p with error := some "symbol literal cannot start with a digit" })
    else
      let valid := state.argn = 0 ∨ valid_utf8 p.buf
      if ¬ valid then
        (false, { p with error := some "invalid utf-8 in symbol" })
      else
        (false, popstate { p with buf := [] } (JanetV.sym p.buf))

/-- `comment` from src/core/parse.c lines 366-375. -/
def comment (p : JanetParser) (c : Nat) : Bool × JanetParser :=
  if c = 10 then (true, { p with states := p.states.tail, buf := [] })
  else (true, push_buf p c)

/-- `close_tuple` from src/core/parse.c lines 377-383: the last `argn`
values of the arg stack become the tuple elements (popping reverses, the
fill loop reverses again). -/
def close_tuple (p : JanetParser) (state : JanetParseState) (flag : Nat) :
    JanetParser × JanetV :=
  let elems := p.args.drop (p.args.length - state.argn)
  ({ p with args := p.args.take (p.args.length - state.argn) },
   JanetV.tuple elems (-1) (-1) flag)

/-- `close_array` from src/core/parse.c lines 385-391. -/
def close_array (p : JanetParser) (state : JanetParseState) :
    JanetParser × JanetV :=
  let elems := p.args.drop (p.args.length - state.argn)
  ({ p with args := p.args.take (p.args.length - state.argn) },
   JanetV.array elems)

/-- Key/value pairing used by `close_struct`/`close_table`
(src/core/parse.c lines 393-411): values are popped two at a time from the
end; pairs are recorded in the order the C loop calls the put function
(last pair first).  The hash ordering of `janet_struct_put` is defined in
a file that is not under `src/` and is modelled as insertion order. -/
def pairUp : List JanetV → List (JanetV × JanetV)
  | k :: v :: rest => pairUp rest ++ [(k, v)]
  | _ => []

/-- `close_struct`. -/
def close_struct (p : JanetParser) (state : JanetParseState) :
    JanetParser × JanetV :=
  let elems := p.args.drop (p.args.length - state.argn)
  ({ p with args := p.args.take (p.args.length - state.argn) },
   JanetV.struct (pairUp elems))

/-- `close_table`. -/
def close_table (p : JanetParser) (state : JanetParseState) :
    JanetParser × JanetV :=
  let elems := p.args.drop (p.args.length - state.argn)
  ({ p with args := p.args.take (p.args.length - state.argn) },
   JanetV.table (pairUp elems))

/-- `longstring` from src/core/parse.c lines 415-455: fence counting at
the beginning (`argn` becomes the fence length), verbatim accumulation
inside the string, and end-candidate tracking (`counter` counts the
closing backticks seen so far). -/
def longstring (p : JanetParser) (state : JanetParseState) (c : Nat) :
    Bool × JanetParser :=
  if state.flags &&& PFLAG_INSTRING ≠ 0 then
    if c = 96 then
      (true, setTop p { state with
        flags := (state.flags ||| PFLAG_END_CANDIDATE) &&& (0xFFFFFFFF ^^^ PFLAG_INSTRING),
        counter := 1 })
    else (true, push_buf p c)
  else if state.flags &&& PFLAG_END_CANDIDATE ≠ 0 then
    if state.counter = state.argn then
      (false, stringend p state)
    else if c = 96 ∧ state.counter < state.argn then
      (true, setTop p { state with counter := state.counter + 1 })
    else
      let p' := setTop p { state with
        flags := (state.flags &&& (0xFFFFFFFF ^^^ PFLAG_END_CANDIDATE)) ||| PFLAG_INSTRING,
        counter := 0 }
      (true, { p' with buf := p'.buf ++ List.replicate state.counter 96 ++ [c] })
  else
    let state' := { state with argn := state.argn + 1 }
    if c ≠ 96 then
      (true, push_buf (setTop p { state' with flags := state'.flags ||| PFLAG_INSTRING }) c)
    else (true, setTop p state')

/-- `atsign` from src/core/parse.c lines 459-484: one byte of lookahead
after `@`; a container or string opener gets the mutable flag, anything
else becomes a token seeded with the `@` byte. -/
def atsign (p : JanetParser) (c : Nat) : Bool × JanetParser :=
  let p0 := { p with states := p.states.tail }
  if c = 123 then
    (true, pushstate p0 .root (PFLAG_CONTAINER ||| PFLAG_CURLYBRACKETS ||| PFLAG_ATSYM))
  else if c = 34 then
    (true, pushstate p0 .stringchar (PFLAG_BUFFER ||| PFLAG_STRING))
  else if c = 96 then
    (true, pushstate p0 .longstring (PFLAG_BUFFER ||| PFLAG_LONGSTRING))
  else if c = 91 then
    (true, pushstate p0 .root (PFLAG_CONTAINER ||| PFLAG_SQRBRACKETS ||| PFLAG_ATSYM))
  else if c = 40 then
    (true, pushstate p0 .root (PFLAG_CONTAINER ||| PFLAG_PARENS ||| PFLAG_ATSYM))
  else
    (false, push_buf (pushstate p0 .tokenchar PFLAG_TOKEN) 64)

/-- Flag value of `JANET_TUPLE_FLAG_BRACKETCTOR` (the header defining it is
not under `src/`; only its identity matters here). -/
def JANET_TUPLE_FLAG_BRACKETCTOR : Nat := 0x10000

/-- `root` from src/core/parse.c lines 487-558: the dispatching state.
Whitespace is discarded; `'` `,` `;` `~` `|` push reader-macro frames;
quotes, comments, `@` and backticks push their dedicated frames; closing
delimiters build the container value; symbol characters reconsume under
`tokenchar`. -/
def root (p : JanetParser) (state : JanetParseState) (c : Nat) :
    Bool × JanetParser :=
  if c = 39 ∨ c = 44 ∨ c = 59 ∨ c = 126 ∨ c = 124 then
    (true, pushstate p .root (PFLAG_READERMAC ||| c))
  else if c = 34 then
    (true, pushstate p .stringchar PFLAG_STRING)
  else if c = 35 then
    (true, pushstate p .comment PFLAG_COMMENT)
  else if c = 64 then
    (true, pushstate p .atsign PFLAG_ATSYM)
  else if c = 96 then
    (true, pushstate p .longstring PFLAG_LONGSTRING)
  else if c = 41 ∨ c = 93 ∨ c = 125 then
    if p.states.length = 1 then
      (true, { p with error := some "unexpected delimiter" })
    else if (c = 41 ∧ state.flags &&& PFLAG_PARENS ≠ 0) ∨
            (c = 93 ∧ state.flags &&& PFLAG_SQRBRACKETS ≠ 0) then
      let (p', ds) :=
        if state.flags &&& PFLAG_ATSYM ≠ 0 then close_array p state
        else close_tuple p state (if c = 93 then JANET_TUPLE_FLAG_BRACKETCTOR else 0)
      (true, popstate p' ds)
    else if c = 125 ∧ state.flags &&& PFLAG_CURLYBRACKETS ≠ 0 then
      if state.argn % 2 = 1 then
        let msg := "struct and table literals expect even number of arguments"
        (true, { p with error := some msg })
      else
        let (p', ds) :=
          if state.flags &&& PFLAG_ATSYM ≠ 0 then close_table p state
          else close_struct p state
        (true, popstate p' ds)
    else
      (true, { p with error := some "mismatched delimiter" })
  else if c = 40 then
    (true, pushstate p .root (PFLAG_CONTAINER ||| PFLAG_PARENS))
  else if c = 91 then
    (true, pushstate p .root (PFLAG_CONTAINER ||| PFLAG_SQRBRACKETS))
  else if c = 123 then
    (true, pushstate p .root (PFLAG_CONTAINER ||| PFLAG_CURLYBRACKETS))
  else if is_whitespace c then (true, p)
  else if ¬ is_symbol_char c then
    (true, { p with error := some "unexpected character" })
  else
    (false, pushstate p .tokenchar PFLAG_TOKEN)

/-- One call through the consumer function pointer of the top frame. -/
def dispatch (p : JanetParser) (c : Nat) : Bool × JanetParser :=
  match p.states with
  | [] => (true, p)
  | state :: _ =>
    match state.consumer with
    | .root => root p state c
    | .tokenchar => tokenchar p state c
    | .stringchar => stringchar p state c
    | .escape1 => escape1 p state c
    | .escapeh => escapeh p state c
    | .comment => comment p c
    | .longstring => longstring p state c
    | .atsign => atsign p c

/-- The `while (!consumed && !parser->error)` loop of
`janet_parser_consume`.  The C loop always terminates after at most
`statecount + 3` iterations; the fuel makes that termination explicit and
is never exhausted on reachable states. -/
def consume_loop : Nat → JanetParser → Nat → JanetParser
  | 0, p, _ => p
  | fuel + 1, p, c =>
    if p.error ≠ none then p
    else
      let r := dispatch p c
      if r.1 then r.2 else consume_loop fuel r.2 c

/-- `janet_parser_checkdead` from src/core/parse.c lines 560-563: panic if
the parser is dead or holds an unchecked error. -/
def janet_parser_checkdead (p : JanetParser) : Option String :=
  if p.flag then some "parser is dead, cannot consume"
  else if p.error ≠ none then some "parser has unchecked error, cannot consume"
  else none

/-- `janet_parser_consume` from src/core/parse.c lines 567-585.  The
second component carries the panic message when `janet_parser_checkdead`
fires; in that case the first component is the untouched input parser
(the C panic long-jumps out before any field is written). -/
def janet_parser_consume (p : JanetParser) (c : Nat) :
    JanetParser × Option String :=
  match janet_parser_checkdead p with
  | some msg => (p, some msg)
  | none =>
    let p1 :=
      if c = 13 then { p with line := p.line + 1, column := 0 }
      else if c = 10 then
        { p with column := 0,
                 line := if p.lookback ≠ 13 then p.line + 1 else p.line }
      else { p with column := p.column + 1 }
    let p2 := consume_loop (p1.states.length + 8) p1 c
    ({ p2 with lookback := (c : Int) }, none)

/-- `janet_parser_init` from src/core/parse.c lines 638-656. -/
def janet_parser_init : JanetParser :=
  pushstate
    { args := [], states := [], buf := [], error := none, lookback := -1,
      line := 1, column := 0, pending := 0, flag := false }
    .root PFLAG_CONTAINER

/-- Feed a byte sequence, stopping at the first panic. -/
def parseBytes (p : JanetParser) : List Nat → JanetParser × Option String
  | [] => (p, none)
  | c :: cs =>
    match janet_parser_consume p c with
    | (p', none) => parseBytes p' cs
    | (p', some e) => (p', some e)

end CoreParse

namespace DstParse

/-- `is_whitespace` from the superseded parser copy,
src/parser/parse.c lines 36-45: this older classifier does treat `;` and
`,` as whitespace. -/
def is_whitespace (c : Nat) : Bool :=
  c == 32 || c == 9 || c == 10 || c == 13 || c == 0 || c == 12 ||
  c == 59 || c == 44

/-- The symbol-character table of the superseded parser copy,
src/parser/parse.c lines 89-92 (it differs from the core table at
backslash, tilde and pipe). -/
def symchars : List Nat :=
  [0x00000000, 0xF7ffec72, 0xd7ffffff, 0x57fffffe,
   0xffffffff, 0xffffffff, 0xffffffff, 0xffffffff]

/-- `is_symbol_char` from src/parser/parse.c lines 96-98. -/
def is_symbol_char (c : Nat) : Bool :=
  (symchars.getD (c >>> 5) 0).testBit (c % 32)

end DstParse

namespace OldComp

open JanetValue

/-! Embedding of the array-of-scopes compiler, src/compiler/compile.c,
whose register allocator (`dstc_lsloti` / `dstc_lslotn` / `dstc_sfreei`),
slot handling (`dstc_freeslot`, `dstc_preread`), scope stack, throwaway
compilation and function-definition builder are the subjects of several
claims.  `c->scopes` keeps its innermost scope at the head of the list. -/

/-- Truncation to `uint32_t`. -/
def w32 (n : Nat) : Nat := n % (2 ^ 32)

/-- Two's-complement conversion of an `int32_t` value to `uint32_t`. -/
def u32 (x : Int) : Nat := (x % (2 ^ 32 : Int)).toNat

/-- Modelled from the spec: the numeric opcode values live in
`dst/dstopcodes.h`, which is not under `src/`.  The claims only compare
opcode identities, so the opcodes are modelled as distinct naturals below
256 (the opcode occupies the low byte of an instruction word). -/
def DOP_LOAD_NIL : Nat := 0
def DOP_LOAD_TRUE : Nat := 1
def DOP_LOAD_FALSE : Nat := 2
def DOP_LOAD_INTEGER : Nat := 3
def DOP_LOAD_CONSTANT : Nat := 4
def DOP_LOAD_UPVALUE : Nat := 5
def DOP_SET_UPVALUE : Nat := 6
def DOP_MOVE_NEAR : Nat := 7
def DOP_MOVE_FAR : Nat := 8
def DOP_GET_INDEX : Nat := 9
def DOP_PUT_INDEX : Nat := 10
def DOP_RETURN : Nat := 11
def DOP_RETURN_NIL : Nat := 12
def DOP_PUSH : Nat := 13
def DOP_PUSH_2 : Nat := 14
def DOP_PUSH_3 : Nat := 15
def DOP_CALL : Nat := 16
def DOP_TAILCALL : Nat := 17

def DST_SLOT_CONSTANT : Nat := 0x10000
def DST_SLOT_NAMED : Nat := 0x20000
def DST_SLOT_MUTABLE : Nat := 0x40000
def DST_SLOT_REF : Nat := 0x80000
def DST_SLOT_RETURNED : Nat := 0x100000
def DST_SLOTTYPE_ANY : Nat := 0xFFFF

def DST_SCOPE_FUNCTION : Nat := 1
def DST_SCOPE_ENV : Nat := 2
def DST_SCOPE_TOP : Nat := 4
def DST_SCOPE_UNUSED : Nat := 8

/-- `DST_FUNCDEF_FLAG_NEEDSENV` from src/include/dst/dsttypes.h line
384. -/
def DST_FUNCDEF_FLAG_NEEDSENV : Nat := 4

/-- `dst_type` of a value, following the `DstType` enum of
src/include/dst/dsttypes.h (numbers count as `DST_INTEGER`; keywords are
symbols in the dst value model). -/
def dst_type (x : JanetV) : Nat :=
  match x with
  | .nil => 0
  | .boolean false => 1
  | .boolean true => 2
  | .number _ => 4
  | .str _ => 6
  | .sym _ => 7
  | .keyword _ => 7
  | .array _ => 8
  | .tuple _ _ _ _ => 9
  | .table _ => 10
  | .struct _ => 11
  | .buffer _ => 12

mutual
/-- `dst_equals` / `janet_equals` (src/core/value.c lines 30-60):
structural equality on immutable values.  Mutable values (buffer, array,
table) compare by pointer in C; that identity is modelled structurally
here, which no claim depends on. -/
def janetEq : JanetV → JanetV → Bool
  | .nil, .nil => true
  | .boolean a, .boolean b => a == b
  | .number a, .number b => a == b
  | .str a, .str b => a == b
  | .sym a, .sym b => a == b
  | .keyword a, .keyword b => a == b
  | .buffer a, .buffer b => a == b
  | .tuple a _ _ _, .tuple b _ _ _ => janetEqList a b
  | .array a, .array b => janetEqList a b
  | .struct a, .struct b => janetEqKV a b
  | .table a, .table b => janetEqKV a b
  | _, _ => false

def janetEqList : List JanetV → List JanetV → Bool
  | [], [] => true
  | a :: as_, b :: bs => janetEq a b && janetEqList as_ bs
  | _, _ => false

def janetEqKV : List (JanetV × JanetV) → List (JanetV × JanetV) → Bool
  | [], [] => true
  | a :: as_, b :: bs =>
    janetEq a.1 b.1 && janetEq a.2 b.2 && janetEqKV as_ bs
  | _, _ => false
end

/-- `struct DstSlot` (src/compiler/compile.h lines 51-56). -/
structure DstSlot where
  index : Int
  envindex : Int
  flags : Nat
  constant : JanetV
deriving Repr

/-- `struct SymPair` (src/compiler/compile.h lines 64-68).  `sym` is
`none` when the pair has been anonymised by `dstc_popscope`. -/
structure SymPair where
  sym : Option (List Nat)
  keep : Bool
  slot : DstSlot
deriving Repr

/-- `DstSourceMapping`: line and column. -/
structure Mapping where
  line : Int
  column : Int
deriving Repr, DecidableEq

/-- A function definition record (`DstFuncDef`), as filled in by
`dstc_pop_funcdef`. -/
structure DstFuncDef where
  slotcount : Int
  environments : List Int
  constants : List JanetV
  defs : List DstFuncDef
  bytecode : List Nat
  sourcemap : List Mapping
  source : Option (List Nat)
  arity : Nat
  flags : Nat
deriving Repr

/-- A compiler scope of the array-of-scopes compiler (the `DstScope` used
by src/compiler/compile.c: an inline `slots` bitmap plus `smax`). -/
structure DstScopeC where
  consts : List JanetV
  syms : List SymPair
  envs : List Int
  defs : List DstFuncDef
  slots : List Nat
  smax : Int
  selfconst : Int
  bytecode_start : Nat
  flags : Nat
deriving Repr

/-- Global binding kinds of the environment table (spec section 4.4). -/
inductive Binding where
  | bindNone
  | bindDef
  | bindVar
  | bindMac
deriving Repr, DecidableEq

/-- The compiler object of src/compiler/compile.c.  `scopes` keeps the
innermost scope at the head.  The result record is flattened into
`status_error` / `error_msg`. -/
structure DstCompilerC where
  scopes : List DstScopeC
  buffer : List Nat
  mapbuffer : List Mapping
  current_mapping : Mapping
  env : List (List Nat × (Binding × JanetV))
  source : Option (List Nat)
  recursion_guard : Int
  status_error : Bool
  error_msg : Option String
deriving Repr

/-- `dstc_error` / `dstc_cerror` (src/compiler/compile.c lines 70-82):
the first error wins. -/
def dstc_cerror (c : DstCompilerC) (m : String) : DstCompilerC :=
  if c.status_error then c
  else { c with status_error := true, error_msg := some m }

/-- `dstc_emit` (src/compiler/compile.c lines 363-366): append the
instruction word and the current source mapping. -/
def dstc_emit (c : DstCompilerC) (instr : Nat) : DstCompilerC :=
  { c with buffer := c.buffer ++ [instr],
           mapbuffer := c.mapbuffer ++ [c.current_mapping] }

/-- Count of trailing one bits, with explicit fuel: the
`while (block & 1)` loop of `dstc_lsloti`.  A `uint32_t` block shifted
right 32 times is zero, so 32 units of fuel make the fuelled recursion
exact for every block value below `2 ^ 32`. -/
def trailingOnesAux : Nat → Nat → Nat
  | 0, _ => 0
  | f + 1, b => if b % 2 = 1 then trailingOnesAux f (b / 2) + 1 else 0

/-- Count of trailing one bits of a `uint32_t` block. -/
def trailingOnes (b : Nat) : Nat := trailingOnesAux 32 b

/-- The block scan of `dstc_lsloti`: index of the first clear bit of the
bitmap, or `none` when every block is full. -/
def findFreeBit : List Nat → Option Nat
  | [] => none
  | b :: rest =>
    if b = 0xFFFFFFFF then (findFreeBit rest).map (· + 32)
    else some (trailingOnes b)

/-- `dstc_lsloti` (src/compiler/compile.c lines 103-129) on the raw
bitmap/`smax` pair: find the lowest clear bit (extending the bitmap when
full, pre-marking the reserved block when block 7 is created), mark it,
update `smax`, return its index. -/
def dstc_lsloti_bits (slots : List Nat) (smax : Int) :
    List Nat × Int × Nat :=
  let (slots1, biti) :=
    match findFreeBit slots with
    | some i => (slots, i)
    | none =>
      (slots ++ [if slots.length = 7 then 0xFFFF0000 else 0],
       slots.length * 32)
  let slots2 := slots1.set (biti / 32)
      ((slots1.getD (biti / 32) 0) ||| (1 <<< (biti % 32)))
  (slots2, if (biti : Int) > smax then (biti : Int) else smax, biti)

/-- Bitmap extension used by `slotalloci`: push zero blocks (pre-marking
the reserved pool when block 7 appears) until `block` is covered. -/
def extendSlots (slots : List Nat) (block : Nat) : List Nat :=
  if slots.length > block then slots
  else extendSlots (slots ++ [if slots.length = 7 then 0xFFFF0000 else 0]) block
termination_by block + 1 - slots.length
decreasing_by simp_arith; omega

/-- `slotalloci` (src/compiler/compile.c lines 132-142): mark a specific
index busy, extending the bitmap as needed. -/
def slotalloci_bits (slots : List Nat) (index : Int) : List Nat :=
  if index < 0 then slots
  else
    let idx := index.toNat
    let slots' := extendSlots slots (idx / 32)
    slots'.set (idx / 32) ((slots'.getD (idx / 32) 0) ||| (1 <<< (idx % 32)))

/-- `dstc_sfreei` (src/compiler/compile.c lines 145-151) on the raw
bitmap: clear the bit unless the index is in the reserved pool
`[0xF0,0xFF]` or out of range. -/
def dstc_sfreei_bits (slots : List Nat) (index : Int) : List Nat :=
  if 0 ≤ index ∧ (index < 0xF0 ∨ index > 0xFF) ∧
      index < ((slots.length : Int) * 32) then
    let idx := index.toNat
    slots.set (idx / 32)
      ((slots.getD (idx / 32) 0) &&& (0xFFFFFFFF ^^^ (1 <<< (idx % 32))))
  else slots

/-- Apply a function to the innermost scope (`&dst_v_last(c->scopes)`). -/
def withTop (c : DstCompilerC) (f : DstScopeC → DstScopeC) : DstCompilerC :=
  match c.scopes with
  | [] => c
  | sc :: rest => { c with scopes := f sc :: rest }

/-- `dstc_lsloti` lifted to the compiler (operates on the innermost
scope). -/
def dstc_lsloti (c : DstCompilerC) : DstCompilerC × Nat :=
  match c.scopes with
  | [] => (c, 0)
  | sc :: rest =>
    let r := dstc_lsloti_bits sc.slots sc.smax
    ({ c with scopes := { sc with slots := r.1, smax := r.2.1 } :: rest }, r.2.2)

/-- `dstc_sfreei` lifted to the compiler. -/
def dstc_sfreei (c : DstCompilerC) (index : Int) : DstCompilerC :=
  withTop c (fun sc => { sc with slots := dstc_sfreei_bits sc.slots index })

/-- `dstc_lslotn` (src/compiler/compile.c lines 156-163): allocate the
lowest free slot; if it exceeds `max`, free it again and fall back to the
reserved slot `0xF0 + nth`. -/
def dstc_lslotn (c : DstCompilerC) (max : Int) (nth : Nat) :
    DstCompilerC × Nat :=
  let r := dstc_lsloti c
  if (r.2 : Int) > max then (dstc_sfreei r.1 (r.2 : Int), 0xF0 + nth)
  else (r.1, r.2)

/-- `dstc_freeslot` (src/compiler/compile.c lines 166-170): constants,
refs, named slots and upvalues are not freed. -/
def dstc_freeslot (c : DstCompilerC) (s : DstSlot) : DstCompilerC :=
  if s.flags &&& (DST_SLOT_CONSTANT ||| DST_SLOT_REF ||| DST_SLOT_NAMED) ≠ 0 then c
  else if s.envindex ≥ 0 then c
  else dstc_sfreei c s.index

/-- `dstc_cslot` (src/compiler/compile.c lines 250-257). -/
def dstc_cslot (x : JanetV) : DstSlot :=
  { index := -1, envindex := -1,
    flags := (1 <<< dst_type x) ||| DST_SLOT_CONSTANT, constant := x }

/-- Index of the scope that owns the constant pool: the innermost
function scope, or the outermost scope when no function scope exists
(the `while (scope > c->scopes)` walk of `dstc_const`). -/
def constScopeIdx (scopes : List DstScopeC) : Nat :=
  match scopes.findIdx? (fun s => s.flags &&& DST_SCOPE_FUNCTION ≠ 0) with
  | some j => j
  | none => scopes.length - 1

/-- `dstc_const` (src/compiler/compile.c lines 369-391): pool a constant
in the innermost function scope, deduplicating via `dst_equals`, with a
hard cap of 0xFFFF entries. -/
def dstc_const (c : DstCompilerC) (x : JanetV) : DstCompilerC × Nat :=
  let j := constScopeIdx c.scopes
  match c.scopes.get? j with
  | none => (c, 0)
  | some sc =>
    match sc.consts.findIdx? (fun k => janetEq x k) with
    | some i => (c, i)
    | none =>
      if sc.consts.length ≥ 0xFFFF then (dstc_cerror c "too many constants", 0)
      else
        let sc' := { sc with consts := sc.consts ++ [x] }
        ({ c with scopes := c.scopes.set j sc' }, sc.consts.length)

/-- `dstc_loadconst` (src/compiler/compile.c lines 394-428). -/
def dstc_loadconst (c : DstCompilerC) (k : JanetV) (dest : Int) :
    DstCompilerC :=
  match k with
  | .nil => dstc_emit c (w32 ((u32 dest <<< 8) ||| DOP_LOAD_NIL))
  | .boolean true => dstc_emit c (w32 ((u32 dest <<< 8) ||| DOP_LOAD_TRUE))
  | .boolean false => dstc_emit c (w32 ((u32 dest <<< 8) ||| DOP_LOAD_FALSE))
  | .number i =>
    if i ≤ 32767 ∧ -32768 ≤ i then
      dstc_emit c (w32 ((u32 i <<< 16) ||| (u32 dest <<< 8) ||| DOP_LOAD_INTEGER))
    else
      let (c1, cindex) := dstc_const c k
      dstc_emit c1 (w32 ((cindex <<< 16) ||| (u32 dest <<< 8) ||| DOP_LOAD_CONSTANT))
  | _ =>
    let (c1, cindex) := dstc_const c k
    dstc_emit c1 (w32 ((cindex <<< 16) ||| (u32 dest <<< 8) ||| DOP_LOAD_CONSTANT))

/-- `dstc_preread` (src/compiler/compile.c lines 432-471): realise a slot
to a local index usable in an instruction operand.  Note that the second
`s.index > max` test is dead code: the preceding branch already fires on
`s.envindex >= 0 || s.index > max`. -/
def dstc_preread (c : DstCompilerC) (max0 : Int) (nth : Nat) (s : DstSlot) :
    DstCompilerC × Int :=
  let max := if s.flags &&& DST_SLOT_REF ≠ 0 then (0xFF : Int) else max0
  if s.flags &&& (DST_SLOT_CONSTANT ||| DST_SLOT_REF) ≠ 0 then
    let (c1, ret) := dstc_lslotn c 0xFF nth
    let c2 := dstc_loadconst c1 s.constant (ret : Int)
    let c3 :=
      if s.flags &&& DST_SLOT_REF ≠ 0 then
        dstc_emit c2 (w32 ((ret <<< 16) ||| (ret <<< 8) ||| DOP_GET_INDEX))
      else c2
    (c3, (ret : Int))
  else if s.envindex ≥ 0 ∨ s.index > max then
    let (c1, ret) := dstc_lslotn c max nth
    (dstc_emit c1 (w32 ((u32 s.index <<< 24) ||| (u32 s.envindex <<< 16) |||
      (ret <<< 8) ||| DOP_LOAD_UPVALUE)), (ret : Int))
  else if s.index > max then
    let (c1, ret) := dstc_lslotn c max nth
    (dstc_emit c1 (w32 ((u32 s.index <<< 16) ||| (ret <<< 8) |||
      DOP_MOVE_NEAR)), (ret : Int))
  else
    (c, s.index)

/-- `dstc_scope` (src/compiler/compile.c lines 184-204): push a scope;
non-function scopes inherit the parent's bitmap and `smax`. -/
def dstc_scope (c : DstCompilerC) (flags : Nat) : DstCompilerC :=
  let base : DstScopeC :=
    { consts := [], syms := [], envs := [], defs := [], slots := [],
      smax := -1, selfconst := -1, bytecode_start := c.buffer.length,
      flags := flags }
  let sc :=
    match c.scopes with
    | old :: _ =>
      if flags &&& DST_SCOPE_FUNCTION = 0 then
        { base with smax := old.smax, slots := old.slots }
      else base
    | [] => base
  { c with scopes := sc :: c.scopes }

/-- `dstc_popscope` (src/compiler/compile.c lines 207-239): pop the
innermost scope; for plain block scopes propagate `smax` and move kept
(captured) slot pairs into the parent, re-reserving their indices. -/
def dstc_popscope (c : DstCompilerC) : DstCompilerC :=
  match c.scopes with
  | [] => c
  | scope :: rest =>
    if scope.flags &&& (DST_SCOPE_FUNCTION ||| DST_SCOPE_UNUSED) = 0 ∧
        rest.isEmpty = false then
      match rest with
      | newscope :: rest2 =>
        let ns1 :=
          if newscope.smax < scope.smax then { newscope with smax := scope.smax }
          else newscope
        let ns2 := scope.syms.foldl
          (fun ns pair =>
            if pair.keep then
              { ns with
                  syms := ns.syms ++ [{ pair with sym := none }],
                  slots := slotalloci_bits ns.slots pair.slot.index }
            else ns) ns1
        { c with scopes := ns2 :: rest2 }
      | [] => c
    else { c with scopes := rest }

/-- `dstc_throwaway` (src/compiler/compile.c lines 712-724),
parameterised by the inner compilation step: `inner` stands for the
`dstc_value opts x` call, whose own callees (special forms, optimizers
and the macro-expanding VM) are not part of the sources under `src/`.
The function snapshots both buffer lengths, pushes an `unused` scope,
runs the inner compilation, pops the scope and truncates both buffers
back to the snapshot. -/
def dstc_throwaway (inner : DstCompilerC → DstCompilerC)
    (c : DstCompilerC) : DstCompilerC :=
  let bufstart := c.buffer.length
  let mapbufstart := c.mapbuffer.length
  let c1 := dstc_scope c DST_SCOPE_UNUSED
  let c2 := inner c1
  let c3 := dstc_popscope c2
  if c3.buffer ≠ [] then
    { c3 with
        buffer := c3.buffer.take bufstart,
        mapbuffer := if c3.mapbuffer ≠ [] then c3.mapbuffer.take mapbufstart
                     else c3.mapbuffer }
  else c3

/-- `dstc_pop_funcdef` (src/compiler/compile.c lines 902-956).  Note: the
source map is copied from index 0 with `dst_v_count(c->mapbuffer)`
entries, NOT from `bytecode_start` — compare `CoreComp.dstc_pop_funcdef`. -/
def dstc_pop_funcdef (c : DstCompilerC) : DstFuncDef × DstCompilerC :=
  match c.scopes with
  | [] =>
    ({ slotcount := 0, environments := [], constants := [], defs := [],
       bytecode := [], sourcemap := [], source := c.source, arity := 0,
       flags := 0 }, c)
  | scope :: _ =>
    let bytecode_length := c.buffer.length - scope.bytecode_start
    let bytecode :=
      if bytecode_length ≠ 0 then c.buffer.drop scope.bytecode_start else []
    let buffer' :=
      if bytecode_length ≠ 0 then c.buffer.take scope.bytecode_start
      else c.buffer
    let sourcemap :=
      if bytecode_length ≠ 0 ∧ c.mapbuffer ≠ [] then c.mapbuffer else []
    let mapbuffer' :=
      if bytecode_length ≠ 0 ∧ c.mapbuffer ≠ [] then
        c.mapbuffer.take scope.bytecode_start
      else c.mapbuffer
    let def_ : DstFuncDef :=
      { slotcount := scope.smax + 1,
        environments := scope.envs,
        constants := scope.consts,
        defs := scope.defs,
        bytecode := bytecode,
        sourcemap := sourcemap,
        source := c.source,
        arity := 0,
        flags := if scope.flags &&& DST_SCOPE_ENV ≠ 0 then
            DST_FUNCDEF_FLAG_NEEDSENV else 0 }
    (def_, dstc_popscope { c with buffer := buffer', mapbuffer := mapbuffer' })

/-- Modelled from the spec: `dst_env_resolve` is not under `src/`.  Spec
section 4.4: the environment table maps a symbol to a binding descriptor
with kind none / def / var / macro and a bound value. -/
def dst_env_resolve (env : List (List Nat × (Binding × JanetV)))
    (sym : List Nat) : Binding × JanetV :=
  match env.find? (fun e => e.1 = sym) with
  | some e => e.2
  | none => (.bindNone, .nil)

/-- Reverse-order search of a scope's symbol list (shadowing): index of
the last pair whose symbol matches. -/
def symFindRev (syms : List SymPair) (sym : List Nat) : Option Nat :=
  match syms.reverse.findIdx? (fun pr => pr.sym = some sym) with
  | some j => some (syms.length - 1 - j)
  | none => none

/-- The scope-walking loop of `dstc_resolve`: starting from the innermost
scope, accumulate the `unused` and `foundlocal` flags and report the
scope index (distance from the innermost scope), the pair index inside
that scope, and the two flags at the moment of the hit. -/
def resolveScan (scopes : List DstScopeC) (sym : List Nat)
    (unused foundlocal : Bool) : Option (Nat × Nat × Bool × Bool) :=
  match scopes with
  | [] => none
  | s :: rest =>
    let unused' := unused || (s.flags &&& DST_SCOPE_UNUSED ≠ 0)
    match symFindRev s.syms sym with
    | some i => some (0, i, unused', foundlocal)
    | none =>
      let fl' := if s.flags &&& DST_SCOPE_FUNCTION ≠ 0 then false else foundlocal
      match resolveScan rest sym unused' fl' with
      | some (k, i, u, f) => some (k + 1, i, u, f)
      | none => none

/-- Index (from the innermost scope) of the first function scope at or
outside position `k`: the owner of a binding found in scope `k`. -/
def funcScopeFrom (scopes : List DstScopeC) (k : Nat) : Option Nat :=
  ((scopes.drop k).findIdx? (fun s => s.flags &&& DST_SCOPE_FUNCTION ≠ 0)).map
    (· + k)

/-- The env-propagation loop of `dstc_resolve` (src/compiler/compile.c
lines 334-356): walk the crossed scopes from the owning function inward;
at each function scope look the carried env index up in the scope's
env-capture list (deduplication), appending it when absent; the carried
index becomes the position found or appended.  The list is ordered
outermost-first here, matching the walk direction. -/
def envPropagate : List DstScopeC → Int → List DstScopeC × Int
  | [], e => ([], e)
  | s :: rest, e =>
    if s.flags &&& DST_SCOPE_FUNCTION ≠ 0 then
      match s.envs.findIdx? (fun v => v = e) with
      | some j =>
        let r := envPropagate rest (j : Int)
        (s :: r.1, r.2)
      | none =>
        let len := s.envs.length
        let r := envPropagate rest (len : Int)
        ({ s with envs := s.envs ++ [e] } :: r.1, r.2)
    else
      let r := envPropagate rest e
      (s :: r.1, r.2)

/-- `dstc_resolve` (src/compiler/compile.c lines 260-360; the linked-
scope copy in src/core/compile.c lines 165-265 implements the identical
algorithm over a parent/child chain): search the scopes innermost-first;
constants and refs return directly; local or dead-code hits return with
`envindex := -1`; otherwise mark the pair kept, flag the owning function
scope as needing an environment, and propagate the env index through
every crossed function scope with per-list deduplication. -/
def dstc_resolve (c : DstCompilerC) (sym : List Nat) :
    DstCompilerC × DstSlot :=
  match resolveScan c.scopes sym false true with
  | none =>
    match dst_env_resolve c.env sym with
    | (.bindNone, _) => (dstc_cerror c "unknown symbol", dstc_cslot .nil)
    | (.bindDef, v) => (c, dstc_cslot v)
    | (.bindMac, v) => (c, dstc_cslot v)
    | (.bindVar, v) =>
      let r := dstc_cslot v
      (c, { r with flags :=
        (r.flags ||| DST_SLOT_REF ||| DST_SLOT_NAMED ||| DST_SLOT_MUTABLE |||
          DST_SLOTTYPE_ANY) &&& (0xFFFFFFFF ^^^ DST_SLOT_CONSTANT) })
  | some (k, i, unused, foundlocal) =>
    match c.scopes.get? k with
    | none => (c, dstc_cslot .nil)
    | some sck =>
      match sck.syms.get? i with
      | none => (c, dstc_cslot .nil)
      | some pair =>
        let ret := pair.slot
        if ret.flags &&& (DST_SLOT_CONSTANT ||| DST_SLOT_REF) ≠ 0 then (c, ret)
        else if unused || foundlocal then (c, { ret with envindex := -1 })
        else
          match funcScopeFrom c.scopes k with
          | none => (c, dstc_cslot .nil)
          | some fd =>
            let scopes1 := c.scopes.set k
              { sck with syms := sck.syms.set i { pair with keep := true } }
            let scopes2 :=
              match scopes1.get? fd with
              | some scf => scopes1.set fd
                  { scf with flags := scf.flags ||| DST_SCOPE_ENV }
              | none => scopes1
            let r := envPropagate (scopes2.take fd).reverse (-1)
            ({ c with scopes := r.1.reverse ++ scopes2.drop fd },
             { ret with envindex := r.2 })

end OldComp

namespace CoreComp

open JanetValue OldComp

/-! Embedding of the linked-scope compiler of src/core/compile.c, as far
as the claims need it: scope popping and the function-definition builder
`dstc_pop_funcdef` (lines 569-620).  The parent/child pointer chain of
`DstScope` is represented as a list with the current (innermost) scope at
the head. -/

/-- Modelled from the spec: the register allocator
(`DstcRegisterAllocator`, `dstc_regalloc_*` of regalloc.c/regalloc.h) is
not under `src/`.  Spec section 4.3: a bitmap of busy slots plus a
running maximum. -/
structure RegAlloc where
  bitmap : List Nat
  max : Int
deriving Repr

/-- Modelled from the spec: `dstc_regalloc_touch` — "like reserve; mark a
specific index busy; extend bitmap if needed". -/
def regalloc_touch (ra : RegAlloc) (index : Int) : RegAlloc :=
  { ra with bitmap := slotalloci_bits ra.bitmap index }

/-- `DST_SCOPE_CLOSURE` is defined in the core compiler's header, which
is not under `src/`; only its identity matters (a scope flag bit distinct
from the four in src/compiler/compile.h). -/
def DST_SCOPE_CLOSURE : Nat := 16

/-- A scope of the linked-scope compiler (`struct DstScope` of
src/compiler/compile.h lines 71-102, with the register allocator in
place of the inline bitmap). -/
structure CoreScope where
  consts : List JanetV
  syms : List SymPair
  envs : List Int
  defs : List DstFuncDef
  ra : RegAlloc
  selfconst : Int
  bytecode_start : Nat
  flags : Nat
deriving Repr

/-- The linked-scope compiler state (`struct DstCompiler` of
src/compiler/compile.h lines 105-124); the scope chain is the list. -/
structure CoreCompiler where
  scopes : List CoreScope
  buffer : List Nat
  mapbuffer : List Mapping
  current_mapping : Mapping
  source : Option (List Nat)
  status_error : Bool
deriving Repr

/-- `dstc_popscope` from src/core/compile.c lines 115-152: pop the
innermost scope; plain block scopes hand the closure flag, the register
maximum and the kept (captured) slot pairs to the parent. -/
def core_popscope (c : CoreCompiler) : CoreCompiler :=
  match c.scopes with
  | [] => c
  | oldscope :: rest =>
    if oldscope.flags &&& (DST_SCOPE_FUNCTION ||| DST_SCOPE_UNUSED) = 0 ∧
        rest.isEmpty = false then
      match rest with
      | newscope :: rest2 =>
        let ns0 :=
          if oldscope.flags &&& DST_SCOPE_CLOSURE ≠ 0 then
            { newscope with flags := newscope.flags ||| DST_SCOPE_CLOSURE }
          else newscope
        let ns1 :=
          if ns0.ra.max < oldscope.ra.max then
            { ns0 with ra := { ns0.ra with max := oldscope.ra.max } }
          else ns0
        let ns2 := oldscope.syms.foldl
          (fun ns pair =>
            if pair.keep then
              { ns with
                  syms := ns.syms ++ [{ pair with sym := none }],
                  ra := regalloc_touch ns.ra pair.slot.index }
            else ns) ns1
        { c with scopes := ns2 :: rest2 }
      | [] => c
    else { c with scopes := rest }

/-- `dstc_pop_funcdef` from src/core/compile.c lines 569-620: package the
innermost function scope into a function definition.  The bytecode is the
buffer slice starting at the scope's `bytecode_start`, and — unlike the
copy in src/compiler/compile.c — the source map is the matching slice of
the map buffer, `bytecode_length` entries starting at `bytecode_start`. -/
def core_pop_funcdef (c : CoreCompiler) : DstFuncDef × CoreCompiler :=
  match c.scopes with
  | [] =>
    ({ slotcount := 0, environments := [], constants := [], defs := [],
       bytecode := [], sourcemap := [], source := c.source, arity := 0,
       flags := 0 }, c)
  | scope :: _ =>
    let bytecode_length := c.buffer.length - scope.bytecode_start
    let bytecode :=
      if bytecode_length ≠ 0 then c.buffer.drop scope.bytecode_start else []
    let buffer' :=
      if bytecode_length ≠ 0 then c.buffer.take scope.bytecode_start
      else c.buffer
    let sourcemap :=
      if bytecode_length ≠ 0 ∧ c.mapbuffer ≠ [] then
        (c.mapbuffer.drop scope.bytecode_start).take bytecode_length
      else []
    let mapbuffer' :=
      if bytecode_length ≠ 0 ∧ c.mapbuffer ≠ [] then
        c.mapbuffer.take scope.bytecode_start
      else c.mapbuffer
    let def_ : DstFuncDef :=
      { slotcount := scope.ra.max + 1,
        environments := scope.envs,
        constants := scope.consts,
        defs := scope.defs,
        bytecode := bytecode,
        sourcemap := sourcemap,
        source := c.source,
        arity := 0,
        flags := if scope.flags &&& DST_SCOPE_ENV ≠ 0 then
            DST_FUNCDEF_FLAG_NEEDSENV else 0 }
    (def_, core_popscope { c with buffer := buffer', mapbuffer := mapbuffer' })

end CoreComp

namespace ClaimDefs

open JanetValue CoreParse OldComp

/-- The symbol-character set exactly as the specification words it:
`A-Z`, `a-z`, `0-9`, the characters `! $ % & * + - . / : < = > @ \ ^ _ ~ |`,
and every byte at or above 0x80.  This definition follows the claim text,
to be compared against the two classifiers from the sources. -/
def claimedSymbolChar (c : Nat) : Bool :=
  decide ((65 ≤ c ∧ c ≤ 90) ∨ (97 ≤ c ∧ c ≤ 122) ∨ (48 ≤ c ∧ c ≤ 57) ∨
    c ∈ [33, 36, 37, 38, 42, 43, 45, 46, 47, 58, 60, 61, 62, 64, 92, 94, 95,
         126, 124] ∨ 128 ≤ c)

/-- Bit `n` of a block bitmap. -/
def bitmapTest (slots : List Nat) (n : Nat) : Bool :=
  (slots.getD (n / 32) 0).testBit (n % 32)

/-- The index `dstc_lsloti` allocates: the lowest clear bit of the bitmap,
or the first index of the extension block when every block is full. -/
def lslot_next (slots : List Nat) : Nat :=
  match findFreeBit slots with
  | some i => i
  | none => 32 * slots.length

/-- Bitmap of the innermost scope of the array-of-scopes compiler. -/
def topSlots (c : DstCompilerC) : List Nat :=
  match c.scopes with
  | sc :: _ => sc.slots
  | [] => []

/-- Validity of an upvalue chain: starting from the carried value `e`
(the owning function's own frame is `-1`), each crossed function scope's
env-capture list, in order from the owning function inward, holds the
carried value at some position, and that position is carried into the
next list; `efinal` is the value carried out of the last list. -/
def chainFrom : Int → List (List Int) → Int → Prop
  | e, [], efinal => efinal = e
  | e, l :: ls, efinal => ∃ j : Nat, l.get? j = some e ∧ chainFrom (j : Int) ls efinal

/-- The env-capture lists of the function scopes of a scope list, in list
order. -/
def functionEnvs (scopes : List DstScopeC) : List (List Int) :=
  (scopes.filter (fun s => s.flags &&& DST_SCOPE_FUNCTION ≠ 0)).map (·.envs)

/-- Compiler state for the `dstc_preread` failing input: a single
function scope with an empty allocator bitmap. -/
def c6_scope : DstScopeC :=
  { consts := [], syms := [], envs := [], defs := [], slots := [],
    smax := -1, selfconst := -1, bytecode_start := 0,
    flags := DST_SCOPE_FUNCTION }

def c6_state : DstCompilerC :=
  { scopes := [c6_scope], buffer := [], mapbuffer := [],
    current_mapping := { line := 0, column := 0 }, env := [], source := none,
    recursion_guard := 1024, status_error := false, error_msg := none }

/-- The failing slot for `dstc_preread`: a plain far local — no constant
or reference flag, `envindex = -1`, index 0x100 beyond the near bound
0xFF. -/
def c6_slot : DstSlot :=
  { index := 0x100, envindex := -1, flags := DST_SLOTTYPE_ANY,
    constant := JanetV.nil }

/-- Old-compiler state exhibiting the source-map divergence of
`dstc_pop_funcdef`: a function scope whose bytecode starts at offset 1 of
a two-instruction buffer (as for a nested function definition). -/
def c9_old_state : DstCompilerC :=
  { scopes := [{ c6_scope with bytecode_start := 1, smax := 0 }],
    buffer := [11, 22],
    mapbuffer := [{ line := 1, column := 1 }, { line := 2, column := 2 }],
    current_mapping := { line := 0, column := 0 }, env := [], source := none,
    recursion_guard := 1024, status_error := false, error_msg := none }

/-- The matching state for the linked-scope compiler. -/
def c9_core_scope : CoreComp.CoreScope :=
  { consts := [], syms := [], envs := [], defs := [],
    ra := { bitmap := [], max := 0 }, selfconst := -1, bytecode_start := 1,
    flags := DST_SCOPE_FUNCTION }

def c9_core_state : CoreComp.CoreCompiler :=
  { scopes := [c9_core_scope],
    buffer := [11, 22],
    mapbuffer := [{ line := 1, column := 1 }, { line := 2, column := 2 }],
    current_mapping := { line := 0, column := 0 }, source := none,
    status_error := false }

/-- The long-string content exactly as the claim words it: the bytes
between the fences kept verbatim, except that one leading newline
immediately after the opening fence and one trailing newline immediately
before the closing fence are removed.  This definition follows the claim
text, to be compared with the parser's behaviour. -/
def specLongContent (body : List Nat) : List Nat :=
  let b1 := if body.head? = some 10 then body.tail else body
  if b1.getLast? = some 10 then b1.dropLast else b1

/-- Flag word of a fresh long-string frame: `PFLAG_LONGSTRING`, plus
`PFLAG_BUFFER` under the `@` prefix. -/
def c3_fl (isB : Bool) : Nat := if isB then 0x4200 else 0x4000

/-- Flag word of a long-string frame inside the string body
(`PFLAG_INSTRING` added). -/
def c3_fi (isB : Bool) : Nat := if isB then 0x104200 else 0x104000

/-- Flag word of a long-string frame that has seen a backtick run that
may close the string (`PFLAG_END_CANDIDATE` instead of
`PFLAG_INSTRING`). -/
def c3_fe (isB : Bool) : Nat := if isB then 0x204200 else 0x204000

/-- Parser shape during long-string consumption: a long-string frame
(with the given flag word, counter and fence length) sitting directly on
a container frame, no produced values yet, and the accumulated content in
the parser buffer.  Source line and column fields are unconstrained. -/
def c3_shape (fl cnt argn : Nat) (B : List Nat)
    (p : CoreParse.JanetParser) : Prop :=
  p.error = none ∧ p.flag = false ∧ p.buf = B ∧ p.pending = 0 ∧
  p.args = [] ∧
  ∃ l1 c1 cnt2 ra l2 c2, p.states =
    [{ counter := cnt, argn := argn, flags := fl, line := l1, column := c1,
       consumer := .longstring },
     { counter := cnt2, argn := ra, flags := CoreParse.PFLAG_CONTAINER,
       line := l2, column := c2, consumer := .root }]

/-- A plain named local binding of the symbol `x` (byte 120), as `def`
installs it: slot 0 of the owning function scope, no special flags. -/
def c4_pair : SymPair :=
  { sym := some [120], keep := false,
    slot := { index := 0, envindex := -1, flags := 0,
              constant := JanetV.nil } }

/-- An outer function scope binding `x`. -/
def c4_bind_scope : DstScopeC :=
  { consts := [], syms := [c4_pair], envs := [], defs := [], slots := [],
    smax := 0, selfconst := -1, bytecode_start := 0,
    flags := DST_SCOPE_FUNCTION }

/-- Compiler state for the capture path of `dstc_resolve`: a reference
from an inner function scope to `x` bound in the enclosing function
scope. -/
def c4_state : DstCompilerC :=
  { scopes := [c6_scope, c4_bind_scope], buffer := [], mapbuffer := [],
    current_mapping := { line := 0, column := 0 }, env := [], source := none,
    recursion_guard := 1024, status_error := false, error_msg := none }

end ClaimDefs

/-! Theorems for the claims, and their helper lemmas. -/

/-- Claim C5, counterexample: byte 63 (`?`) is accepted by both
symbol-character classifiers but is absent from the claimed character
set; moreover byte 92 (backslash), which the claim lists, is rejected by
the core classifier. -/
theorem c5_counterexample :
    CoreParse.is_symbol_char 63 = true ∧ DstParse.is_symbol_char 63 = true ∧
    ClaimDefs.claimedSymbolChar 63 = false ∧
    CoreParse.is_symbol_char 92 = false := by decide

/-- Claim C5, amended: exact characterisation of both classifiers.  The
core table (src/core/parse.c) accepts the letters, the digits,
`! $ % & * + - . / : < = > ? @ ^ _` and every byte at or above 0x80;
the superseded table (src/parser/parse.c) additionally accepts
backslash, pipe and tilde (which the core parser instead treats as
reader macros or rejects). -/
theorem c5_symchar_exact : ∀ c : Fin 256,
    (CoreParse.is_symbol_char c.val = true ↔
      ((65 ≤ c.val ∧ c.val ≤ 90) ∨ (97 ≤ c.val ∧ c.val ≤ 122) ∨
       (48 ≤ c.val ∧ c.val ≤ 57) ∨
       c.val ∈ [33, 36, 37, 38, 42, 43, 45, 46, 47, 58, 60, 61, 62, 63, 64,
                94, 95] ∨
       128 ≤ c.val)) ∧
    (DstParse.is_symbol_char c.val = true ↔
      ((65 ≤ c.val ∧ c.val ≤ 90) ∨ (97 ≤ c.val ∧ c.val ≤ 122) ∨
       (48 ≤ c.val ∧ c.val ≤ 57) ∨
       c.val ∈ [33, 36, 37, 38, 42, 43, 45, 46, 47, 58, 60, 61, 62, 63, 64,
                92, 94, 95, 124, 126] ∨
       128 ≤ c.val)) := by decide

/-- Claim C1, counterexample: comma and semicolon are rejected by the
core whitespace classifier, and consuming a comma at the root state
pushes a frame (the state stack grows from 1 to 2). -/
theorem c1_counterexample :
    CoreParse.is_whitespace 44 = false ∧ CoreParse.is_whitespace 59 = false ∧
    (CoreParse.janet_parser_consume CoreParse.janet_parser_init 44).1.states.length
      = 2 ∧
    ((CoreParse.janet_parser_consume
        CoreParse.janet_parser_init 44).1.states.map
      (fun s => s.flags &&& CoreParse.PFLAG_READERMAC)) =
      [CoreParse.PFLAG_READERMAC, 0] := by
  refine ⟨rfl, rfl, ?_, ?_⟩ <;> decide

/-- Claim C1, amended: the whitespace classifier accepts exactly space,
tab, LF, CR, NUL, vertical tab and form feed; consuming `,` or `;` while
the top frame is a `root` consumer does not discard the byte as
whitespace but pushes a reader-macro frame (unquote and splice
respectively), producing no value and leaving buffers, args and the
pending count unchanged. -/
theorem c1_whitespace_readermac :
    (∀ c : Fin 256, CoreParse.is_whitespace c.val = true ↔
      c.val ∈ [32, 9, 10, 13, 0, 11, 12]) ∧
    (∀ (p : CoreParse.JanetParser) (hd : CoreParse.JanetParseState)
       (rest : List CoreParse.JanetParseState) (c : Nat),
      p.states = hd :: rest → hd.consumer = CoreParse.Consumer.root →
      p.flag = false → p.error = none → (c = 44 ∨ c = 59) →
      CoreParse.janet_parser_consume p c =
        ({ p with
            column := p.column + 1,
            lookback := (c : Int),
            states :=
              { counter := 0,
                argn := 0,
                flags := CoreParse.PFLAG_READERMAC ||| c,
                line := p.line,
                column := p.column + 1,
                consumer := CoreParse.Consumer.root } :: p.states }, none)) := by
  constructor
  · decide
  · intro p hd rest c hstates hcons hflag herr hc
    rcases hc with rfl | rfl <;>
      simp [CoreParse.janet_parser_consume, CoreParse.janet_parser_checkdead,
        hflag, herr, hstates, CoreParse.consume_loop, CoreParse.dispatch,
        hcons, CoreParse.root, CoreParse.is_whitespace, CoreParse.pushstate]

/-- Claim C2: once a parse error is set (and the parser is not dead),
`janet_parser_consume` panics via `janet_parser_checkdead` before
touching any field: the parser state is returned unchanged, no value is
produced, and the panic message is the `parse-unchecked-error` one. -/
theorem c2_sticky_error_consume (p : CoreParse.JanetParser) (c : Nat)
    (e : String) (herr : p.error = some e) (hflag : p.flag = false) :
    CoreParse.janet_parser_consume p c =
      (p, some "parser has unchecked error, cannot consume") := by
  simp [CoreParse.janet_parser_consume, CoreParse.janet_parser_checkdead,
    herr, hflag]

/-- Witness for C2 at a concrete errored parser. -/
theorem c2_witness :
    CoreParse.janet_parser_consume
      { args := [],
        states := [],
        buf := [],
        error := some "mismatched delimiter",
        lookback := -1,
        line := 1,
        column := 0,
        pending := 0,
        flag := false } 40 =
      ({ args := [],
         states := [],
         buf := [],
         error := some "mismatched delimiter",
         lookback := -1,
         line := 1,
         column := 0,
         pending := 0,
         flag := false },
       some "parser has unchecked error, cannot consume") :=
  c2_sticky_error_consume _ 40 "mismatched delimiter" rfl rfl

/-- Claim C10: freeing a slot flagged constant, reference or named, or a
slot with a nonnegative envindex, leaves the compiler (in particular the
innermost scope's allocator bitmap) unchanged; conversely, if freeing
changed anything, the slot was a plain local temporary. -/
theorem c10_freeslot_flags (c : OldComp.DstCompilerC) (s : OldComp.DstSlot) :
    ((s.flags &&& (OldComp.DST_SLOT_CONSTANT ||| OldComp.DST_SLOT_REF |||
        OldComp.DST_SLOT_NAMED) ≠ 0 ∨ 0 ≤ s.envindex) →
      OldComp.dstc_freeslot c s = c) ∧
    (OldComp.dstc_freeslot c s ≠ c →
      s.flags &&& (OldComp.DST_SLOT_CONSTANT ||| OldComp.DST_SLOT_REF |||
        OldComp.DST_SLOT_NAMED) = 0 ∧ s.envindex < 0) := by
  have h1 : (s.flags &&& (OldComp.DST_SLOT_CONSTANT ||| OldComp.DST_SLOT_REF |||
      OldComp.DST_SLOT_NAMED) ≠ 0 ∨ 0 ≤ s.envindex) →
      OldComp.dstc_freeslot c s = c := by
    rintro (h | h)
    · simp [OldComp.dstc_freeslot, h]
    · unfold OldComp.dstc_freeslot
      split
      · rfl
      · simp [h]
  refine ⟨h1, fun hne => ⟨?_, ?_⟩⟩
  · by_contra hflag
    exact hne (h1 (Or.inl hflag))
  · by_contra henv
    push_neg at henv
    exact hne (h1 (Or.inr henv))

/-- Witness for C10 at a concrete named slot. -/
theorem c10_witness :
    OldComp.dstc_freeslot ClaimDefs.c6_state
      { index := 3, envindex := -1, flags := OldComp.DST_SLOT_NAMED,
        constant := JanetValue.JanetV.nil } = ClaimDefs.c6_state :=
  (c10_freeslot_flags ClaimDefs.c6_state _).1 (Or.inl (by decide))

/-- Claim C6 (the code slip): `dstc_preread` on a plain far local slot —
`envindex = -1`, index 0x100 above the near bound 0xFF, no constant or
reference flag — takes the `envindex >= 0 || index > max` branch and
emits `DOP_LOAD_UPVALUE` (with the env operand field holding the
truncated two's-complement of -1, 0xFFFF), not a move: the dedicated
`MOVE_NEAR` branch below it is unreachable. -/
theorem c6_preread_far_local_emits_load_upvalue :
    (OldComp.dstc_preread ClaimDefs.c6_state 0xFF 1 ClaimDefs.c6_slot).2 = 0 ∧
    ((OldComp.dstc_preread ClaimDefs.c6_state 0xFF 1 ClaimDefs.c6_slot).1.buffer.map
        (fun w => w % 256)) = [OldComp.DOP_LOAD_UPVALUE] ∧
    ((OldComp.dstc_preread ClaimDefs.c6_state 0xFF 1 ClaimDefs.c6_slot).1.buffer.map
        (fun w => w / 2 ^ 16 % 2 ^ 16)) = [0xFFFF] ∧
    ClaimDefs.c6_slot.envindex = -1 ∧
    (0xFF : Int) < ClaimDefs.c6_slot.index ∧
    ClaimDefs.c6_slot.flags &&&
      (OldComp.DST_SLOT_CONSTANT ||| OldComp.DST_SLOT_REF) = 0 ∧
    OldComp.DOP_LOAD_UPVALUE ≠ OldComp.DOP_MOVE_NEAR ∧
    OldComp.DOP_LOAD_UPVALUE ≠ OldComp.DOP_MOVE_FAR := by
  decide

/-- Witness for C1 at the freshly initialised parser and the comma byte. -/
theorem c1_witness :
    CoreParse.janet_parser_consume CoreParse.janet_parser_init 44 =
      ({ CoreParse.janet_parser_init with
          column := CoreParse.janet_parser_init.column + 1,
          lookback := (44 : Int),
          states :=
            { counter := 0,
              argn := 0,
              flags := CoreParse.PFLAG_READERMAC ||| 44,
              line := CoreParse.janet_parser_init.line,
              column := CoreParse.janet_parser_init.column + 1,
              consumer := CoreParse.Consumer.root } ::
              CoreParse.janet_parser_init.states }, none) :=
  c1_whitespace_readermac.2 CoreParse.janet_parser_init _ _ 44 rfl rfl rfl rfl
    (Or.inl rfl)

/-- The fuelled trailing-ones count finds a clear bit with only set bits
below it, for any block below the fuel's range. -/
theorem trailingOnesAux_spec (f : Nat) : ∀ b : Nat, b < 2 ^ f →
    Nat.testBit b (OldComp.trailingOnesAux f b) = false ∧
    ∀ j < OldComp.trailingOnesAux f b, Nat.testBit b j = true := by
  induction f with
  | zero =>
    intro b hb
    interval_cases b
    simp [OldComp.trailingOnesAux]
  | succ f ih =>
    intro b hb
    by_cases hodd : b % 2 = 1
    · have hb2 : b / 2 < 2 ^ f := by
        rw [pow_succ] at hb; omega
      obtain ⟨h1, h2⟩ := ih (b / 2) hb2
      rw [OldComp.trailingOnesAux]
      rw [if_pos hodd]
      refine ⟨by rw [Nat.testBit_succ]; exact h1, ?_⟩
      intro j hj
      cases j with
      | zero => simp [Nat.testBit_zero, hodd]
      | succ j' => rw [Nat.testBit_succ]; exact h2 j' (by omega)
    · rw [OldComp.trailingOnesAux, if_neg hodd]
      refine ⟨by simp [Nat.testBit_zero]; omega, by omega⟩

/-- Specialisation to `uint32_t` blocks. -/
theorem trailingOnes_spec (b : Nat) (hb : b < 2 ^ 32) :
    Nat.testBit b (OldComp.trailingOnes b) = false ∧
    ∀ j < OldComp.trailingOnes b, Nat.testBit b j = true :=
  trailingOnesAux_spec 32 b hb

/-- A non-full `uint32_t` block has a clear bit below 32. -/
theorem trailingOnes_lt_32 (b : Nat) (hb : b < 2 ^ 32)
    (hne : b ≠ 0xFFFFFFFF) : OldComp.trailingOnes b < 32 := by
  by_contra h
  push_neg at h
  obtain ⟨_, h2⟩ := trailingOnes_spec b hb
  apply hne
  apply Nat.eq_of_testBit_eq
  intro i
  rcases lt_or_ge i 32 with hi | hi
  · rw [h2 i (lt_of_lt_of_le hi h),
      show (0xFFFFFFFF : Nat) = 2 ^ 32 - 1 from rfl,
      Nat.testBit_two_pow_sub_one]
    simp [hi]
  · rw [Nat.testBit_lt_two_pow
      (lt_of_lt_of_le hb (Nat.pow_le_pow_right (by norm_num) hi)),
      show (0xFFFFFFFF : Nat) = 2 ^ 32 - 1 from rfl,
      Nat.testBit_two_pow_sub_one]
    simp; omega

/-- Reading a bit of a block list, by cases on the first block. -/
theorem bitmapTest_cons (b : Nat) (rest : List Nat) (n : Nat) :
    ClaimDefs.bitmapTest (b :: rest) n =
      if n < 32 then b.testBit n else ClaimDefs.bitmapTest rest (n - 32) := by
  unfold ClaimDefs.bitmapTest
  by_cases h : n < 32
  · rw [if_pos h, Nat.div_eq_of_lt h, Nat.mod_eq_of_lt h]
    rfl
  · rw [if_neg h]
    have h1 : n / 32 = (n - 32) / 32 + 1 := by omega
    have h2 : n % 32 = (n - 32) % 32 := by omega
    rw [h1, h2, List.getD_cons_succ]

/-- `findFreeBit` success: the reported index is the lowest clear bit. -/
theorem findFreeBit_some_spec {slots : List Nat} {i : Nat}
    (h : OldComp.findFreeBit slots = some i)
    (hb : ∀ b ∈ slots, b < 2 ^ 32) :
    i < 32 * slots.length ∧ ClaimDefs.bitmapTest slots i = false ∧
      ∀ j < i, ClaimDefs.bitmapTest slots j = true := by
  induction slots generalizing i with
  | nil => simp [OldComp.findFreeBit] at h
  | cons b rest ih =>
    rw [OldComp.findFreeBit] at h
    by_cases hfull : b = 0xFFFFFFFF
    · rw [if_pos hfull] at h
      cases hrest : OldComp.findFreeBit rest with
      | none => rw [hrest] at h; simp at h
      | some i' =>
        rw [hrest] at h
        simp only [Option.map_some', Option.some.injEq] at h
        subst h
        obtain ⟨h1, h2, h3⟩ := ih hrest
          (fun x hx => hb x (List.mem_cons_of_mem _ hx))
        refine ⟨by simp [List.length_cons]; omega, ?_, ?_⟩
        · rw [bitmapTest_cons, if_neg (by omega)]
          simpa using h2
        · intro j hj
          rw [bitmapTest_cons]
          split
          · subst hfull
            rw [show (0xFFFFFFFF : Nat) = 2 ^ 32 - 1 from rfl,
              Nat.testBit_two_pow_sub_one]
            simpa using ‹j < 32›
          · exact h3 (j - 32) (by omega)
    · rw [if_neg hfull] at h
      simp only [Option.some.injEq] at h
      have hblt := hb b (List.mem_cons_self b rest)
      have hlt := trailingOnes_lt_32 b hblt hfull
      obtain ⟨t1, t2⟩ := trailingOnes_spec b hblt
      subst h
      refine ⟨by simp [List.length_cons]; omega, ?_, ?_⟩
      · rw [bitmapTest_cons, if_pos hlt]; exact t1
      · intro j hj
        rw [bitmapTest_cons, if_pos (by omega)]
        exact t2 j hj

/-- `findFreeBit` failure: every bit of the bitmap is set. -/
theorem findFreeBit_none_spec {slots : List Nat}
    (h : OldComp.findFreeBit slots = none) :
    ∀ j < 32 * slots.length, ClaimDefs.bitmapTest slots j = true := by
  induction slots with
  | nil => simp
  | cons b rest ih =>
    rw [OldComp.findFreeBit] at h
    by_cases hfull : b = 0xFFFFFFFF
    · rw [if_pos hfull] at h
      cases hrest : OldComp.findFreeBit rest with
      | some i' => rw [hrest] at h; simp at h
      | none =>
        intro j hj
        rw [bitmapTest_cons]
        split
        · subst hfull
          rw [show (0xFFFFFFFF : Nat) = 2 ^ 32 - 1 from rfl,
            Nat.testBit_two_pow_sub_one]
          simpa using ‹j < 32›
        · exact ih hrest (j - 32)
            (by simp [List.length_cons] at hj; omega)
    · rw [if_neg hfull] at h
      simp at h

/-- Setting one bit of the bitmap. -/
theorem bitmapTest_set_or {slots : List Nat} {k m : Nat}
    (hk : k < slots.length) (hm : m < 32) (n : Nat) :
    ClaimDefs.bitmapTest
        (slots.set k ((slots.getD k 0) ||| (1 <<< m))) n =
      if n = 32 * k + m then true else ClaimDefs.bitmapTest slots n := by
  unfold ClaimDefs.bitmapTest
  simp only [List.getD_eq_getElem?_getD, List.getElem?_set]
  by_cases hkn : k = n / 32
  · subst hkn
    rw [if_pos rfl, if_pos hk, Option.getD_some, Nat.testBit_lor,
      Nat.shiftLeft_eq, one_mul, Nat.testBit_two_pow]
    by_cases hnm : n = 32 * (n / 32) + m
    · rw [if_pos hnm]
      have hmn : m = n % 32 := by omega
      simp [hmn]
    · rw [if_neg hnm]
      have hmn : ¬ (m = n % 32) := by omega
      simp [hmn, List.getD_eq_getElem?_getD]
  · rw [if_neg hkn, if_neg (by omega)]

/-- Clearing one bit of the bitmap. -/
theorem bitmapTest_clear {slots : List Nat} {k m : Nat}
    (hk : k < slots.length) (hm : m < 32) (n : Nat) :
    ClaimDefs.bitmapTest
        (slots.set k ((slots.getD k 0) &&& (0xFFFFFFFF ^^^ (1 <<< m)))) n =
      if n = 32 * k + m then false else ClaimDefs.bitmapTest slots n := by
  unfold ClaimDefs.bitmapTest
  simp only [List.getD_eq_getElem?_getD, List.getElem?_set]
  have hlt : n % 32 < 32 := Nat.mod_lt _ (by norm_num)
  by_cases hkn : k = n / 32
  · subst hkn
    rw [if_pos rfl, if_pos hk, Option.getD_some, Nat.testBit_land,
      Nat.testBit_xor, Nat.shiftLeft_eq, one_mul, Nat.testBit_two_pow,
      show (0xFFFFFFFF : Nat) = 2 ^ 32 - 1 from rfl,
      Nat.testBit_two_pow_sub_one]
    by_cases hnm : n = 32 * (n / 32) + m
    · rw [if_pos hnm]
      have hmn : m = n % 32 := by omega
      simp [hmn, hlt]
    · rw [if_neg hnm]
      have hmn : ¬ (m = n % 32) := by omega
      simp [hmn, hlt, List.getD_eq_getElem?_getD]
  · rw [if_neg hkn, if_neg (by omega)]

/-- `dstc_lsloti_bits` returns the lowest clear bit index. -/
theorem lsloti_bits_ret (slots : List Nat) (smax : Int) :
    (OldComp.dstc_lsloti_bits slots smax).2.2 = ClaimDefs.lslot_next slots := by
  unfold OldComp.dstc_lsloti_bits ClaimDefs.lslot_next
  cases h : OldComp.findFreeBit slots <;> simp [h]
  omega

/-- `dstc_lsloti_bits` marks the allocated index busy. -/
theorem lsloti_bits_marked (slots : List Nat) (smax : Int)
    (hb : ∀ b ∈ slots, b < 2 ^ 32) :
    ClaimDefs.bitmapTest (OldComp.dstc_lsloti_bits slots smax).1
      (ClaimDefs.lslot_next slots) = true := by
  unfold OldComp.dstc_lsloti_bits ClaimDefs.lslot_next
  cases h : OldComp.findFreeBit slots with
  | some i0 =>
    obtain ⟨h1, _, _⟩ := findFreeBit_some_spec h hb
    simp only [h]
    rw [bitmapTest_set_or (by omega) (Nat.mod_lt _ (by norm_num))]
    rw [if_pos (by omega)]
  | none =>
    simp only [h]
    have hk : (slots.length * 32) / 32 = slots.length := by omega
    have hm : (slots.length * 32) % 32 = 0 := by omega
    rw [bitmapTest_set_or
      (by simp [hk, List.length_append]) (by omega)]
    rw [if_pos (by omega)]

/-- The allocated index is within the (possibly extended) bitmap range. -/
theorem lsloti_bits_len (slots : List Nat) (smax : Int)
    (hb : ∀ b ∈ slots, b < 2 ^ 32) :
    ClaimDefs.lslot_next slots <
      32 * (OldComp.dstc_lsloti_bits slots smax).1.length := by
  unfold OldComp.dstc_lsloti_bits ClaimDefs.lslot_next
  cases h : OldComp.findFreeBit slots with
  | some i0 =>
    obtain ⟨h1, _, _⟩ := findFreeBit_some_spec h hb
    simp only [h, List.length_set]
    omega
  | none =>
    simp only [h, List.length_set, List.length_append, List.length_singleton]
    omega

/-- The allocated index never lands in the reserved pool `[0xF0,0xFF]`:
for at most seven blocks the whole bitmap sits below 0xF0, and once block
7 exists the invariant keeps the pool's bits busy. -/
theorem lslot_next_not_reserved (slots : List Nat)
    (hb : ∀ b ∈ slots, b < 2 ^ 32)
    (hres : 8 ≤ slots.length →
      ∀ j, 0xF0 ≤ j → j ≤ 0xFF → ClaimDefs.bitmapTest slots j = true) :
    ClaimDefs.lslot_next slots < 0xF0 ∨ 0xFF < ClaimDefs.lslot_next slots := by
  cases h : OldComp.findFreeBit slots with
  | some i0 =>
    have hi : ClaimDefs.lslot_next slots = i0 := by
      unfold ClaimDefs.lslot_next; simp [h]
    obtain ⟨h1, h2, _⟩ := findFreeBit_some_spec h hb
    rw [hi]
    by_cases hlen : slots.length ≤ 7
    · left; omega
    · by_contra hcon
      push_neg at hcon
      have := hres (by omega) i0 (by omega) (by omega)
      rw [this] at h2
      exact absurd h2 (by simp)
  | none =>
    have hi : ClaimDefs.lslot_next slots = 32 * slots.length := by
      unfold ClaimDefs.lslot_next; simp [h]
    rw [hi]
    by_cases hlen : slots.length ≤ 7
    · left; omega
    · right; omega

/-- Claim C7: behaviour of the near-slot allocator.  With the reserved
pool invariant (bits 0xF0-0xFF busy whenever block 7 exists) and blocks
in `uint32_t` range: (i) the index `dstc_lsloti` picks is the lowest
clear bit of the bitmap; (ii) when it does not exceed `max`,
`dstc_lslotn` marks it busy and returns it; (iii) when it exceeds `max`,
`dstc_lslotn` clears the bit again and returns the reserved index
`0xF0 + nth`; (iv) when the bitmap grows to cover the reserved pool
(block 7), that block is pre-marked `0xFFFF0000`, keeping indices
0xF0-0xFF busy; (v) `dstc_sfreei` on a reserved-pool index is a complete
no-op (the guard `index < 0xF0 || index > 0xFF` fails), and for every
index whatsoever it never clears a reserved-pool bit. -/
theorem c7_alloc_near (c : OldComp.DstCompilerC) (sc : OldComp.DstScopeC)
    (rest : List OldComp.DstScopeC) (max : Int) (nth : Nat)
    (hsc : c.scopes = sc :: rest)
    (hblocks : ∀ b ∈ sc.slots, b < 2 ^ 32)
    (hres : 8 ≤ sc.slots.length →
      ∀ j, 0xF0 ≤ j → j ≤ 0xFF → ClaimDefs.bitmapTest sc.slots j = true) :
    (∀ j < ClaimDefs.lslot_next sc.slots,
      ClaimDefs.bitmapTest sc.slots j = true) ∧
    (ClaimDefs.lslot_next sc.slots < 32 * sc.slots.length →
      ClaimDefs.bitmapTest sc.slots (ClaimDefs.lslot_next sc.slots) = false) ∧
    ((ClaimDefs.lslot_next sc.slots : Int) ≤ max →
      (OldComp.dstc_lslotn c max nth).2 = ClaimDefs.lslot_next sc.slots ∧
      ClaimDefs.bitmapTest
        (ClaimDefs.topSlots (OldComp.dstc_lslotn c max nth).1)
        (ClaimDefs.lslot_next sc.slots) = true) ∧
    (max < (ClaimDefs.lslot_next sc.slots : Int) →
      (OldComp.dstc_lslotn c max nth).2 = 0xF0 + nth ∧
      ClaimDefs.bitmapTest
        (ClaimDefs.topSlots (OldComp.dstc_lslotn c max nth).1)
        (ClaimDefs.lslot_next sc.slots) = false) ∧
    (OldComp.findFreeBit sc.slots = none → sc.slots.length = 7 →
      ∀ j, 0xF0 ≤ j → j ≤ 0xFF →
        ClaimDefs.bitmapTest (OldComp.dstc_lsloti_bits sc.slots sc.smax).1 j
          = true) ∧
    (∀ idx : Int, 0xF0 ≤ idx → idx ≤ 0xFF →
      OldComp.dstc_sfreei_bits sc.slots idx = sc.slots) ∧
    (∀ (idx : Int) (j : Nat), 0xF0 ≤ j → j ≤ 0xFF →
      ClaimDefs.bitmapTest (OldComp.dstc_sfreei_bits sc.slots idx) j =
        ClaimDefs.bitmapTest sc.slots j) := by
  have hlsl : OldComp.dstc_lsloti c =
      ({ c with scopes :=
          { sc with
              slots := (OldComp.dstc_lsloti_bits sc.slots sc.smax).1,
              smax := (OldComp.dstc_lsloti_bits sc.slots sc.smax).2.1 } ::
            rest },
        (OldComp.dstc_lsloti_bits sc.slots sc.smax).2.2) := by
    unfold OldComp.dstc_lsloti
    rw [hsc]
  have hret := lsloti_bits_ret sc.slots sc.smax
  refine ⟨?_, ?_, ?_, ?_, ?_, ?_, ?_⟩
  · intro j hj
    unfold ClaimDefs.lslot_next at hj
    cases h : OldComp.findFreeBit sc.slots with
    | some i0 =>
      rw [h] at hj
      exact (findFreeBit_some_spec h hblocks).2.2 j hj
    | none =>
      rw [h] at hj
      exact findFreeBit_none_spec h j hj
  · intro hlt
    cases h : OldComp.findFreeBit sc.slots with
    | some i0 =>
      have hi : ClaimDefs.lslot_next sc.slots = i0 := by
        unfold ClaimDefs.lslot_next; simp [h]
      rw [hi]
      exact (findFreeBit_some_spec h hblocks).2.1
    | none =>
      have hi : ClaimDefs.lslot_next sc.slots = 32 * sc.slots.length := by
        unfold ClaimDefs.lslot_next; simp [h]
      rw [hi] at hlt
      omega
  · intro hle
    unfold OldComp.dstc_lslotn
    rw [hlsl]
    simp only [hret]
    rw [if_neg (by omega)]
    exact ⟨rfl, lsloti_bits_marked sc.slots sc.smax hblocks⟩
  · intro hgt
    unfold OldComp.dstc_lslotn
    rw [hlsl]
    simp only [hret]
    rw [if_pos (by omega)]
    refine ⟨rfl, ?_⟩
    have hnr := lslot_next_not_reserved sc.slots hblocks hres
    have hlen := lsloti_bits_len sc.slots sc.smax hblocks
    show ClaimDefs.bitmapTest
      (OldComp.dstc_sfreei_bits (OldComp.dstc_lsloti_bits sc.slots sc.smax).1
        (ClaimDefs.lslot_next sc.slots : Int))
      (ClaimDefs.lslot_next sc.slots) = false
    unfold OldComp.dstc_sfreei_bits
    rw [if_pos (by omega)]
    simp only [Int.toNat_natCast]
    rw [bitmapTest_clear (by omega) (Nat.mod_lt _ (by norm_num))]
    rw [if_pos (by omega)]
  · intro hnone hlen7 j hj1 hj2
    unfold OldComp.dstc_lsloti_bits
    simp only [hnone]
    have hk : (sc.slots.length * 32) / 32 = sc.slots.length := by omega
    rw [bitmapTest_set_or
      (by simp [hk, List.length_append]) (by omega)]
    rw [if_neg (by omega)]
    unfold ClaimDefs.bitmapTest
    rw [List.getD_eq_getElem?_getD, List.getElem?_append,
      if_neg (by omega)]
    have hj32 : j / 32 - sc.slots.length = 0 := by omega
    rw [hj32]
    simp only [List.getElem?_cons_zero, Option.getD_some]
    have hjm : j % 32 = j - 224 := by omega
    rw [hjm, hlen7]
    interval_cases j <;> decide
  · intro idx h1 h2
    unfold OldComp.dstc_sfreei_bits
    rw [if_neg (by omega)]
  · intro idx j hj1 hj2
    unfold OldComp.dstc_sfreei_bits
    split
    · next hguard =>
      simp only
      rw [bitmapTest_clear (by omega) (Nat.mod_lt _ (by norm_num))]
      rw [if_neg (by omega)]
    · rfl

/-- Witness for C7 at a fresh function scope with an empty bitmap:
slot 0 is allocated, returned and marked busy. -/
theorem c7_witness :
    (OldComp.dstc_lslotn ClaimDefs.c6_state 0xFF 1).2 = 0 ∧
    ClaimDefs.bitmapTest
      (ClaimDefs.topSlots (OldComp.dstc_lslotn ClaimDefs.c6_state 0xFF 1).1)
      0 = true := by
  have h := c7_alloc_near ClaimDefs.c6_state ClaimDefs.c6_scope [] 0xFF 1 rfl
    (by intro b hb; simp [ClaimDefs.c6_scope] at hb)
    (by intro h8; exact absurd h8 (by decide))
  have h2 := h.2.2.1 (by decide)
  have hz : ClaimDefs.lslot_next ClaimDefs.c6_scope.slots = 0 := rfl
  refine ⟨h2.1.trans hz, ?_⟩
  have := h2.2
  rwa [hz] at this

/-- `dstc_popscope` touches only the scope stack: the bytecode buffer,
the source-map buffer and the error status are untouched. -/
theorem popscope_preserves (c : OldComp.DstCompilerC) :
    (OldComp.dstc_popscope c).buffer = c.buffer ∧
    (OldComp.dstc_popscope c).mapbuffer = c.mapbuffer ∧
    (OldComp.dstc_popscope c).status_error = c.status_error := by
  unfold OldComp.dstc_popscope
  split
  · exact ⟨rfl, rfl, rfl⟩
  · split
    · split
      · exact ⟨rfl, rfl, rfl⟩
      · exact ⟨rfl, rfl, rfl⟩
    · exact ⟨rfl, rfl, rfl⟩

/-- `dstc_scope` touches only the scope stack. -/
theorem scope_preserves (c : OldComp.DstCompilerC) (flags : Nat) :
    (OldComp.dstc_scope c flags).buffer = c.buffer ∧
    (OldComp.dstc_scope c flags).mapbuffer = c.mapbuffer ∧
    (OldComp.dstc_scope c flags).status_error = c.status_error := by
  unfold OldComp.dstc_scope
  exact ⟨rfl, rfl, rfl⟩

/-- Claim C8: with the buffer/source-map parity invariant and an inner
compilation step that only grows the two buffers (as `dstc_value` does),
`dstc_throwaway` restores both buffer lengths exactly to their snapshot
values, while an error status raised by the inner compilation survives. -/
theorem c8_throwaway (inner : OldComp.DstCompilerC → OldComp.DstCompilerC)
    (c : OldComp.DstCompilerC)
    (hpar : c.mapbuffer.length = c.buffer.length)
    (hpar2 :
      (inner (OldComp.dstc_scope c OldComp.DST_SCOPE_UNUSED)).mapbuffer.length =
      (inner (OldComp.dstc_scope c OldComp.DST_SCOPE_UNUSED)).buffer.length)
    (h1 : c.buffer.length ≤
      (inner (OldComp.dstc_scope c OldComp.DST_SCOPE_UNUSED)).buffer.length) :
    (OldComp.dstc_throwaway inner c).buffer.length = c.buffer.length ∧
    (OldComp.dstc_throwaway inner c).mapbuffer.length = c.mapbuffer.length ∧
    ((inner (OldComp.dstc_scope c OldComp.DST_SCOPE_UNUSED)).status_error = true →
      (OldComp.dstc_throwaway inner c).status_error = true) := by
  unfold OldComp.dstc_throwaway
  obtain ⟨pb, pm, ps⟩ :=
    popscope_preserves (inner (OldComp.dstc_scope c OldComp.DST_SCOPE_UNUSED))
  by_cases hempty :
      (OldComp.dstc_popscope
        (inner (OldComp.dstc_scope c OldComp.DST_SCOPE_UNUSED))).buffer = []
  · rw [if_neg (by simp [hempty])]
    have hb0 : (inner (OldComp.dstc_scope c OldComp.DST_SCOPE_UNUSED)).buffer = [] := by
      rw [← pb]; exact hempty
    have hc0 : c.buffer.length = 0 := by
      have := h1
      rw [hb0] at this
      simpa using this
    have hm0 : (inner (OldComp.dstc_scope c OldComp.DST_SCOPE_UNUSED)).mapbuffer = [] := by
      have : (inner (OldComp.dstc_scope c OldComp.DST_SCOPE_UNUSED)).mapbuffer.length = 0 := by
        rw [hpar2, hb0]; rfl
      exact List.length_eq_zero.mp this
    refine ⟨?_, ?_, fun he => ?_⟩
    · rw [pb, hb0, hc0]; rfl
    · rw [pm, hm0, hpar, hc0]; rfl
    · rw [ps]; exact he
  · rw [if_pos (by simpa using hempty)]
    have hm1 : (OldComp.dstc_popscope
        (inner (OldComp.dstc_scope c OldComp.DST_SCOPE_UNUSED))).mapbuffer ≠ [] := by
      rw [pm]
      intro hcon
      apply hempty
      rw [pb]
      have : (inner (OldComp.dstc_scope c OldComp.DST_SCOPE_UNUSED)).buffer.length = 0 := by
        rw [← hpar2, hcon]; rfl
      exact List.length_eq_zero.mp this
    rw [if_pos hm1]
    refine ⟨?_, ?_, fun he => ?_⟩
    · simp only [List.length_take, pb]
      omega
    · simp only [List.length_take, pm]
      omega
    · simp only [ps]
      exact he

/-- Witness for C8 with the identity as the (empty) inner compilation on
a fresh compiler state. -/
theorem c8_witness :
    (OldComp.dstc_throwaway (fun st => st) ClaimDefs.c6_state).buffer.length
      = 0 ∧
    (OldComp.dstc_throwaway (fun st => st) ClaimDefs.c6_state).mapbuffer.length
      = 0 := by
  have h := c8_throwaway (fun st => st) ClaimDefs.c6_state rfl rfl
    (Nat.le_refl _)
  exact ⟨h.1.trans rfl, h.2.1.trans rfl⟩

/-- Claim C9, counterexample: in the array-of-scopes compiler's
`dstc_pop_funcdef` (src/compiler/compile.c lines 929-939), the source map
is copied from index 0 with the FULL map-buffer length, so for a function
scope whose bytecode starts at offset 1 the produced definition has one
bytecode instruction but two source-map entries. -/
theorem c9_counterexample :
    (OldComp.dstc_pop_funcdef ClaimDefs.c9_old_state).1.bytecode.length = 1 ∧
    (OldComp.dstc_pop_funcdef ClaimDefs.c9_old_state).1.sourcemap.length = 2 ∧
    (OldComp.dstc_pop_funcdef ClaimDefs.c9_old_state).1.sourcemap.length ≠
      (OldComp.dstc_pop_funcdef ClaimDefs.c9_old_state).1.bytecode.length := by
  refine ⟨rfl, rfl, ?_⟩
  intro h
  rw [show (OldComp.dstc_pop_funcdef ClaimDefs.c9_old_state).1.sourcemap.length
      = 2 from rfl,
    show (OldComp.dstc_pop_funcdef ClaimDefs.c9_old_state).1.bytecode.length
      = 1 from rfl] at h
  exact absurd h (by decide)

/-- Claim C9, amended: in the linked-scope compiler (src/core/compile.c),
`dstc_pop_funcdef` on a state with map/bytecode buffer parity and a
non-empty bytecode slice produces a definition whose source map has
exactly one entry per bytecode instruction, namely the slice of the map
buffer starting at the scope's `bytecode_start`. -/
theorem c9_core_sourcemap_parity (c : CoreComp.CoreCompiler)
    (scope : CoreComp.CoreScope) (rest : List CoreComp.CoreScope)
    (hsc : c.scopes = scope :: rest)
    (hpar : c.mapbuffer.length = c.buffer.length)
    (hlt : scope.bytecode_start < c.buffer.length) :
    (CoreComp.core_pop_funcdef c).1.sourcemap.length =
      (CoreComp.core_pop_funcdef c).1.bytecode.length ∧
    (CoreComp.core_pop_funcdef c).1.bytecode =
      c.buffer.drop scope.bytecode_start ∧
    (CoreComp.core_pop_funcdef c).1.sourcemap =
      c.mapbuffer.drop scope.bytecode_start := by
  have hne : c.buffer.length - scope.bytecode_start ≠ 0 := by omega
  have hmne : c.mapbuffer ≠ [] := by
    intro h0
    rw [h0] at hpar
    simp at hpar
    omega
  unfold CoreComp.core_pop_funcdef
  rw [hsc]
  simp only [hne, hmne, ne_eq, not_false_eq_true, and_self, if_true,
    ite_true]
  have hdlen : (c.mapbuffer.drop scope.bytecode_start).length =
      c.buffer.length - scope.bytecode_start := by
    simp [List.length_drop, hpar]
  refine ⟨?_, by trivial, ?_⟩
  · rw [List.take_of_length_le (le_of_eq hdlen)]
    simp [List.length_drop, hpar]
  · rw [List.take_of_length_le (le_of_eq hdlen)]

/-- Witness for C9 at the concrete nested-function state. -/
theorem c9_witness :
    (CoreComp.core_pop_funcdef ClaimDefs.c9_core_state).1.sourcemap.length =
      (CoreComp.core_pop_funcdef ClaimDefs.c9_core_state).1.bytecode.length ∧
    (CoreComp.core_pop_funcdef ClaimDefs.c9_core_state).1.bytecode = [22] ∧
    (CoreComp.core_pop_funcdef ClaimDefs.c9_core_state).1.sourcemap =
      [{ line := 2, column := 2 }] := by
  have h := c9_core_sourcemap_parity ClaimDefs.c9_core_state
    ClaimDefs.c9_core_scope [] rfl rfl (by decide)
  exact ⟨h.1, h.2.1.trans rfl, h.2.2.trans rfl⟩

/-- A successful `findIdx?` returns an index whose element satisfies the
predicate. -/
theorem findIdx?_some_get {α : Type} {p : α → Bool} {l : List α} {j : Nat}
    (h : l.findIdx? p = some j) : ∃ x, l[j]? = some x ∧ p x = true := by
  rw [List.findIdx?_eq_some_iff_findIdx_eq] at h
  obtain ⟨hlt, hfi⟩ := h
  refine ⟨l[j], List.getElem?_eq_getElem hlt, ?_⟩
  subst hfi
  exact List.findIdx_getElem

/-- `envPropagate` preserves the length of the scope list. -/
theorem envPropagate_len (ls : List OldComp.DstScopeC) (e : Int) :
    (OldComp.envPropagate ls e).1.length = ls.length := by
  induction ls generalizing e with
  | nil => rfl
  | cons s rest ih =>
    unfold OldComp.envPropagate
    by_cases hf : s.flags &&& OldComp.DST_SCOPE_FUNCTION ≠ 0
    · rw [if_pos hf]
      cases hidx : s.envs.findIdx? (fun v => v = e) <;>
        simp only [List.length_cons, ih]
    · rw [if_neg hf]
      simp only [List.length_cons, ih]

/-- `envPropagate` only rewrites env-capture lists: the symbol lists and
flag words of every scope are untouched. -/
theorem envPropagate_proj (ls : List OldComp.DstScopeC) (e : Int) (n : Nat) :
    ((OldComp.envPropagate ls e).1[n]?).map (fun s => (s.syms, s.flags)) =
      (ls[n]?).map (fun s => (s.syms, s.flags)) := by
  induction ls generalizing e n with
  | nil => rfl
  | cons s rest ih =>
    unfold OldComp.envPropagate
    by_cases hf : s.flags &&& OldComp.DST_SCOPE_FUNCTION ≠ 0
    · rw [if_pos hf]
      cases hidx : s.envs.findIdx? (fun v => v = e) with
      | some j =>
        cases n with
        | zero => simp
        | succ n' => simpa using ih (j : Int) n'
      | none =>
        cases n with
        | zero => simp
        | succ n' => simpa using ih (s.envs.length : Int) n'
    · rw [if_neg hf]
      cases n with
      | zero => simp
      | succ n' => simpa using ih e n'

/-- The env-propagation loop builds a valid capture chain: starting from
the carried index `e`, every crossed function scope's (updated)
env-capture list links the carried index to its position, and the loop's
final index closes the chain. -/
theorem envPropagate_chain (ls : List OldComp.DstScopeC) (e : Int) :
    ClaimDefs.chainFrom e
      (ClaimDefs.functionEnvs (OldComp.envPropagate ls e).1)
      (OldComp.envPropagate ls e).2 := by
  induction ls generalizing e with
  | nil =>
    simp [OldComp.envPropagate, ClaimDefs.functionEnvs, ClaimDefs.chainFrom]
  | cons s rest ih =>
    unfold OldComp.envPropagate
    by_cases hf : s.flags &&& OldComp.DST_SCOPE_FUNCTION ≠ 0
    · rw [if_pos hf]
      cases hidx : s.envs.findIdx? (fun v => v = e) with
      | some j =>
        obtain ⟨x, hx, hpx⟩ := findIdx?_some_get hidx
        simp only
        unfold ClaimDefs.functionEnvs
        rw [List.filter_cons, if_pos (by simpa using hf)]
        rw [List.map_cons]
        refine ⟨j, ?_, ?_⟩
        · rw [List.get?_eq_getElem?, hx]
          simp at hpx
          rw [hpx]
        · exact ih (j : Int)
      | none =>
        simp only
        unfold ClaimDefs.functionEnvs
        rw [List.filter_cons]
        rw [if_pos (by simpa using hf)]
        rw [List.map_cons]
        refine ⟨s.envs.length, ?_, ?_⟩
        · rw [List.get?_eq_getElem?]
          exact List.getElem?_concat_length s.envs e
        · exact ih (s.envs.length : Int)
    · rw [if_neg hf]
      simp only
      unfold ClaimDefs.functionEnvs
      rw [List.filter_cons, if_neg (by simpa using hf)]
      exact ih e

/-- The env-propagation loop deduplicates: it never introduces a
duplicate entry into any env-capture list. -/
theorem envPropagate_nodup (ls : List OldComp.DstScopeC) (e : Int)
    (hnd : ∀ sc ∈ ls, sc.envs.Nodup) :
    ∀ sc ∈ (OldComp.envPropagate ls e).1, sc.envs.Nodup := by
  induction ls generalizing e with
  | nil => intro sc h; simp [OldComp.envPropagate] at h
  | cons s rest ih =>
    intro sc hmem
    unfold OldComp.envPropagate at hmem
    by_cases hf : s.flags &&& OldComp.DST_SCOPE_FUNCTION ≠ 0
    · rw [if_pos hf] at hmem
      cases hidx : s.envs.findIdx? (fun v => v = e) with
      | some j =>
        rw [hidx] at hmem
        simp only [List.mem_cons] at hmem
        rcases hmem with rfl | hmem
        · exact hnd _ (List.mem_cons_self _ _)
        · exact ih (j : Int) (fun x hx => hnd x (List.mem_cons_of_mem _ hx))
            sc hmem
      | none =>
        rw [hidx] at hmem
        simp only [List.mem_cons] at hmem
        rcases hmem with rfl | hmem
        · have hne : e ∉ s.envs := by
            rw [List.findIdx?_eq_none_iff] at hidx
            intro hcon
            have := hidx e hcon
            simp at this
          have hsnd := hnd s (List.mem_cons_self s rest)
          simp [List.nodup_append, hsnd, hne]
        · exact ih (s.envs.length : Int)
            (fun x hx => hnd x (List.mem_cons_of_mem _ hx)) sc hmem
    · rw [if_neg hf] at hmem
      simp only [List.mem_cons] at hmem
      rcases hmem with rfl | hmem
      · exact hnd _ (List.mem_cons_self _ _)
      · exact ih e (fun x hx => hnd x (List.mem_cons_of_mem _ hx)) sc hmem

/-- Pointwise projection equality transports across `List.reverse`. -/
theorem reverse_proj {α β : Type} (f : α → β) (l1 l2 : List α)
    (hlen : l1.length = l2.length)
    (h : ∀ n : Nat, (l1[n]?).map f = (l2[n]?).map f) :
    ∀ n : Nat, (l1.reverse[n]?).map f = (l2.reverse[n]?).map f := by
  intro n
  by_cases hn : n < l1.length
  · rw [List.getElem?_reverse (by simpa using hn),
      List.getElem?_reverse (by rw [← hlen]; simpa using hn)]
    rw [hlen]
    exact h (l2.length - 1 - n)
  · have h1 : l1.reverse.length ≤ n := by simpa using Nat.le_of_not_lt hn
    have h2 : l2.reverse.length ≤ n := by
      rw [List.length_reverse, ← hlen]
      exact Nat.le_of_not_lt hn
    rw [List.getElem?_eq_none h1, List.getElem?_eq_none h2]

/-- Flagging a scope with `DST_SCOPE_ENV` makes the needs-env test
succeed, whatever the previous flag word. -/
theorem or_env_and_env_ne_zero (x : Nat) :
    (x ||| OldComp.DST_SCOPE_ENV) &&& OldComp.DST_SCOPE_ENV ≠ 0 := by
  intro h
  have h1 := congrArg (fun m => m.testBit 1) h
  simp only [OldComp.DST_SCOPE_ENV, Nat.testBit_and, Nat.testBit_or] at h1
  have h2 : Nat.testBit 2 1 = true := by decide
  rw [h2] at h1
  simp at h1

/-- Shape of the scope list returned by the capture branch of
`dstc_resolve`: the crossed prefix keeps its symbol lists and flag words,
the suffix from the owning function outward is untouched, the env chain
built by `envPropagate` is valid, and deduplication is preserved. -/
theorem c4_shape (scopes2 : List OldComp.DstScopeC) (fd : Nat)
    (hfdlt : fd < scopes2.length) :
    (∀ n : Nat, n < fd →
      ((((OldComp.envPropagate (scopes2.take fd).reverse (-1)).1.reverse ++
          scopes2.drop fd)[n]?).map (fun s => (s.syms, s.flags)) =
        (scopes2[n]?).map (fun s => (s.syms, s.flags)))) ∧
    (∀ n : Nat, fd ≤ n →
      ((OldComp.envPropagate (scopes2.take fd).reverse (-1)).1.reverse ++
        scopes2.drop fd)[n]? = scopes2[n]?) ∧
    ClaimDefs.chainFrom (-1)
      (ClaimDefs.functionEnvs
        ((((OldComp.envPropagate (scopes2.take fd).reverse (-1)).1.reverse ++
          scopes2.drop fd).take fd).reverse))
      (OldComp.envPropagate (scopes2.take fd).reverse (-1)).2 ∧
    ((∀ sc ∈ scopes2, sc.envs.Nodup) →
      ∀ sc ∈ (OldComp.envPropagate (scopes2.take fd).reverse (-1)).1.reverse ++
        scopes2.drop fd, sc.envs.Nodup) := by
  have hlentake : (scopes2.take fd).length = fd := by
    rw [List.length_take]
    omega
  have hlenr :
      (OldComp.envPropagate (scopes2.take fd).reverse (-1)).1.length = fd := by
    rw [envPropagate_len, List.length_reverse, hlentake]
  have hlenrev :
      (OldComp.envPropagate (scopes2.take fd).reverse (-1)).1.reverse.length =
        fd := by
    rw [List.length_reverse, hlenr]
  have hproj : ∀ n : Nat,
      ((OldComp.envPropagate (scopes2.take fd).reverse (-1)).1.reverse[n]?).map
        (fun s => (s.syms, s.flags)) =
      ((scopes2.take fd)[n]?).map (fun s => (s.syms, s.flags)) := by
    have h1 := reverse_proj (fun s : OldComp.DstScopeC => (s.syms, s.flags))
      (OldComp.envPropagate (scopes2.take fd).reverse (-1)).1
      (scopes2.take fd).reverse
      (by rw [envPropagate_len, List.length_reverse])
      (fun n => envPropagate_proj (scopes2.take fd).reverse (-1) n)
    intro n
    have h2 := h1 n
    rw [List.reverse_reverse] at h2
    exact h2
  refine ⟨?_, ?_, ?_, ?_⟩
  · intro n hn
    rw [List.getElem?_append, if_pos (by rw [hlenrev]; exact hn)]
    rw [hproj n, List.getElem?_take, if_pos hn]
  · intro n hn
    rw [List.getElem?_append_right (by rw [hlenrev]; exact hn), hlenrev,
      List.getElem?_drop]
    have h3 : fd + (n - fd) = n := by omega
    rw [h3]
  · have htl :
        ((OldComp.envPropagate (scopes2.take fd).reverse (-1)).1.reverse ++
          scopes2.drop fd).take fd =
        (OldComp.envPropagate (scopes2.take fd).reverse (-1)).1.reverse :=
      List.take_left' hlenrev
    rw [htl, List.reverse_reverse]
    exact envPropagate_chain (scopes2.take fd).reverse (-1)
  · intro hnd2 sc hsc
    rcases List.mem_append.mp hsc with h | h
    · exact envPropagate_nodup (scopes2.take fd).reverse (-1)
        (fun x hx => hnd2 x (List.take_subset _ _ (List.mem_reverse.mp hx)))
        sc (List.mem_reverse.mp h)
    · exact hnd2 sc (List.drop_subset _ _ h)

/-- Claim C4: when `dstc_resolve` finds the symbol across a function
boundary (the hit is neither a constant nor a reference, not local, and
not inside dead code), the returned compiler has the originating symbol
pair marked `keep := true`, the owning function scope flagged
`DST_SCOPE_ENV` (needs an environment), every env-capture list still
deduplicated, and the returned slot's `envindex` closes a valid capture
chain through the env-capture lists of the crossed function scopes, from
the owning function (carried index `-1`) inward. -/
theorem c4_resolve_capture (c : OldComp.DstCompilerC) (sym : List Nat)
    (k i fd : Nat) (sck : OldComp.DstScopeC) (pr : OldComp.SymPair)
    (hscan : OldComp.resolveScan c.scopes sym false true =
      some (k, i, false, false))
    (hsck : c.scopes.get? k = some sck)
    (hpr : sck.syms.get? i = some pr)
    (hflags : pr.slot.flags &&&
      (OldComp.DST_SLOT_CONSTANT ||| OldComp.DST_SLOT_REF) = 0)
    (hfd : OldComp.funcScopeFrom c.scopes k = some fd)
    (hnd : ∀ sc ∈ c.scopes, sc.envs.Nodup) :
    (∃ sck2, (OldComp.dstc_resolve c sym).1.scopes.get? k = some sck2 ∧
      sck2.syms.get? i = some { pr with keep := true }) ∧
    (∃ scf2, (OldComp.dstc_resolve c sym).1.scopes.get? fd = some scf2 ∧
      scf2.flags &&& OldComp.DST_SCOPE_ENV ≠ 0) ∧
    ClaimDefs.chainFrom (-1)
      (ClaimDefs.functionEnvs
        (((OldComp.dstc_resolve c sym).1.scopes.take fd).reverse))
      (OldComp.dstc_resolve c sym).2.envindex ∧
    ∀ sc ∈ (OldComp.dstc_resolve c sym).1.scopes, sc.envs.Nodup := by
  have hk : k < c.scopes.length := by
    have h := hsck
    rw [List.get?_eq_getElem?] at h
    exact (List.getElem?_eq_some.mp h).1
  have hi2 : i < sck.syms.length := by
    have h := hpr
    rw [List.get?_eq_getElem?] at h
    exact (List.getElem?_eq_some.mp h).1
  have hfd2 := hfd
  unfold OldComp.funcScopeFrom at hfd2
  rw [Option.map_eq_some'] at hfd2
  obtain ⟨j, hjidx, hjeq⟩ := hfd2
  have hjfd : j + k = fd := hjeq
  have hjlt : j < (c.scopes.drop k).length :=
    (List.findIdx?_eq_some_iff_findIdx_eq.mp hjidx).1
  have hfdlt : fd < c.scopes.length := by
    rw [List.length_drop] at hjlt; omega
  have hkfd : k ≤ fd := by omega
  have hfd1 : fd < (c.scopes.set k
      { sck with syms := sck.syms.set i { pr with keep := true } }).length := by
    rw [List.length_set]; exact hfdlt
  have hget2 : (c.scopes.set k
      { sck with syms := sck.syms.set i { pr with keep := true } }).get? fd =
      some ((c.scopes.set k
        { sck with syms := sck.syms.set i { pr with keep := true } }).get
          ⟨fd, hfd1⟩) := by
    rw [List.get?_eq_getElem?]
    exact List.getElem?_eq_getElem hfd1
  simp only [OldComp.dstc_resolve, hscan, hsck, hpr, hfd, hflags, hget2,
    ne_eq, not_true, Bool.false_eq_true, reduceIte, Bool.or_self]
  set A : OldComp.DstScopeC :=
    { sck with syms := sck.syms.set i { pr with keep := true } } with hA
  set scf : OldComp.DstScopeC := (c.scopes.set k A).get ⟨fd, hfd1⟩ with hscf
  set B : OldComp.DstScopeC :=
    { scf with flags := scf.flags ||| OldComp.DST_SCOPE_ENV } with hB
  set scopes2 : List OldComp.DstScopeC := (c.scopes.set k A).set fd B with hs2
  have hfdlt2 : fd < scopes2.length := by
    rw [hs2, List.length_set, List.length_set]
    exact hfdlt
  obtain ⟨hpre, hsuf, hchain, hnodup⟩ := c4_shape scopes2 fd hfdlt2
  have hsckmem : sck ∈ c.scopes := by
    have h := hsck
    rw [List.get?_eq_getElem?] at h
    obtain ⟨hlt, hget⟩ := List.getElem?_eq_some.mp h
    rw [← hget]
    exact List.getElem_mem hlt
  have hnd2 : ∀ sc ∈ scopes2, sc.envs.Nodup := by
    intro sc hsc
    rw [hs2] at hsc
    rcases List.mem_or_eq_of_mem_set hsc with hsc1 | rfl
    · rcases List.mem_or_eq_of_mem_set hsc1 with hsc0 | rfl
      · exact hnd sc hsc0
      · show sck.envs.Nodup
        exact hnd sck hsckmem
    · have hscfmem : scf ∈ c.scopes.set k A := by
        rw [hscf]
        exact List.get_mem _ _ _
      rcases List.mem_or_eq_of_mem_set hscfmem with h0 | hEq
      · show scf.envs.Nodup
        exact hnd scf h0
      · show scf.envs.Nodup
        rw [hEq]
        show sck.envs.Nodup
        exact hnd sck hsckmem
  refine ⟨?_, ?_, hchain, hnodup hnd2⟩
  · rcases Nat.lt_or_ge k fd with hklt | hkge
    · have h1 := hpre k hklt
      have h2 : scopes2[k]? = some A := by
        rw [hs2, List.getElem?_set_ne (by omega), List.getElem?_set_self hk]
      rw [h2] at h1
      simp only [Option.map_some'] at h1
      obtain ⟨sck2, hsck2, hproj2⟩ := Option.map_eq_some'.mp h1
      rw [List.get?_eq_getElem?]
      refine ⟨sck2, hsck2, ?_⟩
      have hsyms : sck2.syms = A.syms := congrArg Prod.fst hproj2
      have hAsyms : A.syms = sck.syms.set i { pr with keep := true } := rfl
      rw [List.get?_eq_getElem?, hsyms, hAsyms, List.getElem?_set_self hi2]
    · have hkeq : k = fd := by omega
      refine ⟨B, ?_, ?_⟩
      · rw [List.get?_eq_getElem?, hkeq, hsuf fd (le_refl fd), hs2,
          List.getElem?_set_self (by rw [List.length_set]; exact hfdlt)]
      · have hscfA : scf = A := by
          rw [hscf, List.get_eq_getElem, List.getElem_set, if_pos hkeq]
        have hBs : B.syms = sck.syms.set i { pr with keep := true } := by
          show scf.syms = _
          rw [hscfA]
        rw [List.get?_eq_getElem?, hBs, List.getElem?_set_self hi2]
  · refine ⟨B, ?_, ?_⟩
    · rw [List.get?_eq_getElem?, hsuf fd (le_refl fd), hs2,
        List.getElem?_set_self (by rw [List.length_set]; exact hfdlt)]
    · show (scf.flags ||| OldComp.DST_SCOPE_ENV) &&& OldComp.DST_SCOPE_ENV ≠ 0
      exact or_env_and_env_ne_zero scf.flags

/-- Witness for `c4_resolve_capture`: a two-scope state in which an
inner function scope references `x` bound in the enclosing function
scope. -/
theorem c4_witness :
    (OldComp.resolveScan ClaimDefs.c4_state.scopes [120] false true =
      some (1, 0, false, false)) ∧
    (ClaimDefs.c4_state.scopes.get? 1 = some ClaimDefs.c4_bind_scope) ∧
    (ClaimDefs.c4_bind_scope.syms.get? 0 = some ClaimDefs.c4_pair) ∧
    (ClaimDefs.c4_pair.slot.flags &&&
      (OldComp.DST_SLOT_CONSTANT ||| OldComp.DST_SLOT_REF) = 0) ∧
    (OldComp.funcScopeFrom ClaimDefs.c4_state.scopes 1 = some 1) ∧
    (∀ sc ∈ ClaimDefs.c4_state.scopes, sc.envs.Nodup) ∧
    ((∃ sck2,
        (OldComp.dstc_resolve ClaimDefs.c4_state [120]).1.scopes.get? 1 =
          some sck2 ∧
        sck2.syms.get? 0 = some { ClaimDefs.c4_pair with keep := true }) ∧
      (∃ scf2,
        (OldComp.dstc_resolve ClaimDefs.c4_state [120]).1.scopes.get? 1 =
          some scf2 ∧
        scf2.flags &&& OldComp.DST_SCOPE_ENV ≠ 0) ∧
      ClaimDefs.chainFrom (-1)
        (ClaimDefs.functionEnvs
          (((OldComp.dstc_resolve ClaimDefs.c4_state [120]).1.scopes.take
            1).reverse))
        (OldComp.dstc_resolve ClaimDefs.c4_state [120]).2.envindex ∧
      ∀ sc ∈ (OldComp.dstc_resolve ClaimDefs.c4_state [120]).1.scopes,
        sc.envs.Nodup) :=
  ⟨by decide, rfl, rfl, by decide, by decide, by decide,
   c4_resolve_capture ClaimDefs.c4_state [120] 1 0 1 ClaimDefs.c4_bind_scope
     ClaimDefs.c4_pair (by decide) rfl rfl (by decide) (by decide)
     (by decide)⟩

section C3Infra

open CoreParse JanetValue

/-- Ground bit-level facts used when stepping the long-string consumer. -/
theorem c3x1 : (1064960 : Nat) &&& 1048576 = 1048576 := by decide
theorem c3x2 : (1065472 : Nat) &&& 1048576 = 1048576 := by decide
theorem c3x3 : (1064960 : Nat) ||| 2097152 = 3162112 := by decide
theorem c3x4 : (1065472 : Nat) ||| 2097152 = 3162624 := by decide
theorem c3x5 : (4294967295 : Nat) ^^^ 1048576 = 4293918719 := by decide
theorem c3x6 : (3162112 : Nat) &&& 4293918719 = 2113536 := by decide
theorem c3x7 : (3162624 : Nat) &&& 4293918719 = 2114048 := by decide
theorem c3x8 : (2113536 : Nat) &&& 1048576 = 0 := by decide
theorem c3x9 : (2114048 : Nat) &&& 1048576 = 0 := by decide
theorem c3x10 : (2113536 : Nat) &&& 2097152 = 2097152 := by decide
theorem c3x11 : (2114048 : Nat) &&& 2097152 = 2097152 := by decide
theorem c3x12 : (4294967295 : Nat) ^^^ 2097152 = 4292870143 := by decide
theorem c3x13 : (2113536 : Nat) &&& 4292870143 = 16384 := by decide
theorem c3x14 : (2114048 : Nat) &&& 4292870143 = 16896 := by decide
theorem c3x15 : (16384 : Nat) ||| 1048576 = 1064960 := by decide
theorem c3x16 : (16896 : Nat) ||| 1048576 = 1065472 := by decide
theorem c3x17 : (16384 : Nat) &&& 1048576 = 0 := by decide
theorem c3x18 : (16896 : Nat) &&& 1048576 = 0 := by decide
theorem c3x19 : (16384 : Nat) &&& 2097152 = 0 := by decide
theorem c3x20 : (16896 : Nat) &&& 2097152 = 0 := by decide
theorem c3x21 : (2113536 : Nat) &&& 16384 = 16384 := by decide
theorem c3x22 : (2114048 : Nat) &&& 16384 = 16384 := by decide
theorem c3x23 : (2113536 : Nat) &&& 512 = 0 := by decide
theorem c3x24 : (2114048 : Nat) &&& 512 = 512 := by decide
theorem c3x25 : (256 : Nat) &&& 256 = 256 := by decide
theorem c3x26 : ¬ (1048576 : Nat) = 0 := by decide
theorem c3x27 : ¬ (2097152 : Nat) = 0 := by decide
theorem c3x28 : ¬ (16384 : Nat) = 0 := by decide
theorem c3x29 : ¬ (512 : Nat) = 0 := by decide
theorem c3x30 : ¬ (256 : Nat) = 0 := by decide
theorem c3x31 : ¬ (96 : Nat) = 13 := by decide
theorem c3x32 : ¬ (96 : Nat) = 10 := by decide

/-- A live parser (no sticky error, not dead) passes
`janet_parser_checkdead`. -/
theorem c3_cd (p : JanetParser) (he : p.error = none) (hf : p.flag = false) :
    janet_parser_checkdead p = none := by
  unfold janet_parser_checkdead
  rw [he, hf]
  simp

/-- A consumed dispatch ends the consume loop. -/
theorem c3_loop_t (fuel : Nat) (p : JanetParser) (c : Nat)
    (q : JanetParser) (he : p.error = none)
    (h : dispatch p c = (true, q)) :
    consume_loop (fuel + 1) p c = q := by
  rw [consume_loop, h]
  simp [he]

/-- An unconsumed dispatch keeps the consume loop running on the updated
parser. -/
theorem c3_loop_f (fuel : Nat) (p : JanetParser) (c : Nat)
    (q : JanetParser) (he : p.error = none)
    (h : dispatch p c = (false, q)) :
    consume_loop (fuel + 1) p c = consume_loop fuel q c := by
  rw [consume_loop, h]
  simp [he]

/-- Dispatch: a backtick inside the string body turns the frame into an
end candidate with counter 1. -/
theorem c3_d_ibq (isB : Bool) (n : Nat) (B : List Nat) (lb : Int)
    (line col l1 c1 cnt2 ra l2 c2 : Nat) :
    dispatch
      ⟨[], [⟨0, n, ClaimDefs.c3_fi isB, l1, c1, .longstring⟩,
        ⟨cnt2, ra, PFLAG_CONTAINER, l2, c2, .root⟩],
       B, none, lb, line, col, 0, false⟩ 96 =
    (true, ⟨[], [⟨1, n, ClaimDefs.c3_fe isB, l1, c1, .longstring⟩,
        ⟨cnt2, ra, PFLAG_CONTAINER, l2, c2, .root⟩],
       B, none, lb, line, col, 0, false⟩) := by
  cases isB <;>
  simp only [ClaimDefs.c3_fi, ClaimDefs.c3_fe, dispatch, longstring, setTop,
    push_buf, PFLAG_INSTRING, PFLAG_END_CANDIDATE, c3x1, c3x2, c3x3, c3x4,
    c3x5, c3x6, c3x7, c3x26, ne_eq, not_true, not_false_eq_true, Bool.false_eq_true, ite_true,
    ite_false, reduceIte, eq_self_iff_true, List.tail_cons]

/-- Dispatch: a non-backtick byte inside the string body is appended to
the buffer. -/
theorem c3_d_ich (isB : Bool) (n : Nat) (B : List Nat) (lb : Int)
    (line col l1 c1 cnt2 ra l2 c2 c : Nat) (hc : ¬ c = 96) :
    dispatch
      ⟨[], [⟨0, n, ClaimDefs.c3_fi isB, l1, c1, .longstring⟩,
        ⟨cnt2, ra, PFLAG_CONTAINER, l2, c2, .root⟩],
       B, none, lb, line, col, 0, false⟩ c =
    (true, ⟨[], [⟨0, n, ClaimDefs.c3_fi isB, l1, c1, .longstring⟩,
        ⟨cnt2, ra, PFLAG_CONTAINER, l2, c2, .root⟩],
       B ++ [c], none, lb, line, col, 0, false⟩) := by
  cases isB <;>
  simp only [ClaimDefs.c3_fi, dispatch, longstring, setTop, push_buf,
    PFLAG_INSTRING, PFLAG_END_CANDIDATE, c3x1, c3x2, c3x26, hc, ne_eq,
    not_true, not_false_eq_true, Bool.false_eq_true, ite_true, ite_false, reduceIte,
    eq_self_iff_true, List.tail_cons]

/-- Dispatch: a backtick while an end candidate is pending, with the run
still shorter than the fence, extends the candidate run. -/
theorem c3_d_ebq (isB : Bool) (n j : Nat) (B : List Nat) (lb : Int)
    (line col l1 c1 cnt2 ra l2 c2 : Nat) (hne : ¬ j = n) (hlt : j < n) :
    dispatch
      ⟨[], [⟨j, n, ClaimDefs.c3_fe isB, l1, c1, .longstring⟩,
        ⟨cnt2, ra, PFLAG_CONTAINER, l2, c2, .root⟩],
       B, none, lb, line, col, 0, false⟩ 96 =
    (true, ⟨[], [⟨j + 1, n, ClaimDefs.c3_fe isB, l1, c1, .longstring⟩,
        ⟨cnt2, ra, PFLAG_CONTAINER, l2, c2, .root⟩],
       B, none, lb, line, col, 0, false⟩) := by
  cases isB <;>
  simp only [ClaimDefs.c3_fe, dispatch, longstring, setTop, push_buf,
    PFLAG_INSTRING, PFLAG_END_CANDIDATE, c3x8, c3x9, c3x10, c3x11, c3x27,
    hne, hlt, ne_eq, not_true, not_false_eq_true, Bool.false_eq_true, ite_true, ite_false,
    reduceIte, eq_self_iff_true, and_self, and_true, true_and,
    List.tail_cons]

/-- Dispatch: a non-backtick byte while an end candidate run of length
`j < n` is pending reverts to in-string mode, flushing the run and the
byte to the buffer. -/
theorem c3_d_erev (isB : Bool) (n j : Nat) (B : List Nat) (lb : Int)
    (line col l1 c1 cnt2 ra l2 c2 c : Nat) (hne : ¬ j = n) (hc : ¬ c = 96) :
    dispatch
      ⟨[], [⟨j, n, ClaimDefs.c3_fe isB, l1, c1, .longstring⟩,
        ⟨cnt2, ra, PFLAG_CONTAINER, l2, c2, .root⟩],
       B, none, lb, line, col, 0, false⟩ c =
    (true, ⟨[], [⟨0, n, ClaimDefs.c3_fi isB, l1, c1, .longstring⟩,
        ⟨cnt2, ra, PFLAG_CONTAINER, l2, c2, .root⟩],
       B ++ List.replicate j 96 ++ [c], none, lb, line, col, 0, false⟩) := by
  cases isB <;>
  simp only [ClaimDefs.c3_fe, ClaimDefs.c3_fi, dispatch, longstring, setTop,
    push_buf, PFLAG_INSTRING, PFLAG_END_CANDIDATE, c3x8, c3x9, c3x10, c3x11,
    c3x12, c3x13, c3x14, c3x15, c3x16, c3x27, hne, hc, ne_eq, not_true,
    not_false_eq_true, Bool.false_eq_true, ite_true, ite_false, reduceIte, eq_self_iff_true,
    false_and, and_false, List.tail_cons, List.append_assoc]

/-- Dispatch: the byte after a completed closing fence finishes the
string: the frame pops, the value lands in the container below, and the
byte is left unconsumed. -/
theorem c3_d_eterm (isB : Bool) (n : Nat) (B : List Nat) (lb : Int)
    (line col l1 c1 cnt2 ra l2 c2 : Nat) :
    dispatch
      ⟨[], [⟨n, n, ClaimDefs.c3_fe isB, l1, c1, .longstring⟩,
        ⟨cnt2, ra, PFLAG_CONTAINER, l2, c2, .root⟩],
       B, none, lb, line, col, 0, false⟩ 32 =
    (false, ⟨[(if isB then JanetV.buffer else JanetV.str)
        (longstring_strip B)],
       [⟨cnt2, ra + 1, PFLAG_CONTAINER, l2, c2, .root⟩],
       [], none, lb, line, col, 1, false⟩) := by
  cases isB <;>
  simp only [ClaimDefs.c3_fe, dispatch, longstring, stringend, popstate,
    setTupleSm, setTop, push_buf, PFLAG_INSTRING, PFLAG_END_CANDIDATE,
    PFLAG_LONGSTRING, PFLAG_BUFFER, PFLAG_CONTAINER, PFLAG_READERMAC,
    c3x8, c3x9, c3x10, c3x11, c3x21, c3x22, c3x23, c3x24, c3x25, c3x27,
    c3x28, c3x29, c3x30, ne_eq, not_true, not_false_eq_true,
    Bool.false_eq_true, ite_true, ite_false, reduceIte, eq_self_iff_true,
    List.tail_cons, List.length_nil, List.nil_append, Nat.zero_add]

/-- Dispatch: a backtick while still reading the opening fence lengthens
the fence count. -/
theorem c3_d_bbq (isB : Bool) (a : Nat) (B : List Nat) (lb : Int)
    (line col l1 c1 cnt2 ra l2 c2 : Nat) :
    dispatch
      ⟨[], [⟨0, a, ClaimDefs.c3_fl isB, l1, c1, .longstring⟩,
        ⟨cnt2, ra, PFLAG_CONTAINER, l2, c2, .root⟩],
       B, none, lb, line, col, 0, false⟩ 96 =
    (true, ⟨[], [⟨0, a + 1, ClaimDefs.c3_fl isB, l1, c1, .longstring⟩,
        ⟨cnt2, ra, PFLAG_CONTAINER, l2, c2, .root⟩],
       B, none, lb, line, col, 0, false⟩) := by
  cases isB <;>
  simp only [ClaimDefs.c3_fl, dispatch, longstring, setTop, push_buf,
    PFLAG_INSTRING, PFLAG_END_CANDIDATE, c3x17, c3x18, c3x19, c3x20,
    ne_eq, not_true, not_false_eq_true, Bool.false_eq_true, ite_true,
    ite_false, reduceIte, eq_self_iff_true, List.tail_cons]

/-- Dispatch: the first non-backtick byte after the opening fence starts
the string body (it also bumps the fence count, making `argn` the full
fence length). -/
theorem c3_d_bch (isB : Bool) (a : Nat) (B : List Nat) (lb : Int)
    (line col l1 c1 cnt2 ra l2 c2 c : Nat) (hc : ¬ c = 96) :
    dispatch
      ⟨[], [⟨0, a, ClaimDefs.c3_fl isB, l1, c1, .longstring⟩,
        ⟨cnt2, ra, PFLAG_CONTAINER, l2, c2, .root⟩],
       B, none, lb, line, col, 0, false⟩ c =
    (true, ⟨[], [⟨0, a + 1, ClaimDefs.c3_fi isB, l1, c1, .longstring⟩,
        ⟨cnt2, ra, PFLAG_CONTAINER, l2, c2, .root⟩],
       B ++ [c], none, lb, line, col, 0, false⟩) := by
  cases isB <;>
  simp only [ClaimDefs.c3_fl, ClaimDefs.c3_fi, dispatch, longstring, setTop,
    push_buf, PFLAG_INSTRING, PFLAG_END_CANDIDATE, c3x15, c3x16, c3x17,
    c3x18, c3x19, c3x20, hc, ne_eq, not_true, not_false_eq_true,
    Bool.false_eq_true, ite_true, ite_false, reduceIte, eq_self_iff_true,
    List.tail_cons]

/-- Dispatch: the root state swallows a space byte. -/
theorem c3_d_rootws (p : JanetParser) (st : JanetParseState)
    (rest : List JanetParseState) (hs : p.states = st :: rest)
    (hcons : st.consumer = .root) :
    dispatch p 32 = (true, p) := by
  have h1 : ¬ ((32 : Nat) = 39 ∨ (32 : Nat) = 44 ∨ (32 : Nat) = 59 ∨
      (32 : Nat) = 126 ∨ (32 : Nat) = 124) := by decide
  have h2 : ¬ (32 : Nat) = 34 := by decide
  have h3 : ¬ (32 : Nat) = 35 := by decide
  have h4 : ¬ (32 : Nat) = 64 := by decide
  have h5 : ¬ (32 : Nat) = 96 := by decide
  have h6 : ¬ ((32 : Nat) = 41 ∨ (32 : Nat) = 93 ∨ (32 : Nat) = 125) := by
    decide
  have h7 : ¬ (32 : Nat) = 40 := by decide
  have h8 : ¬ (32 : Nat) = 91 := by decide
  have h9 : ¬ (32 : Nat) = 123 := by decide
  have hws : is_whitespace 32 = true := by decide
  simp only [dispatch, hs, hcons, root, hws, h1, h2, h3, h4, h5, h6, h7, h8,
    h9, ne_eq, not_true, not_false_eq_true, Bool.false_eq_true, ite_true,
    ite_false, reduceIte, eq_self_iff_true]

/-- `janet_parser_consume` on a live parser: the line/column update
commutes past the dispatch loop, which never reads those fields in the
transitions used here; the updated values are abstracted away. -/
theorem c3_consume_split (p : JanetParser) (c : Nat)
    (he : p.error = none) (hf : p.flag = false) :
    ∃ l2 c2 : Nat, janet_parser_consume p c =
      ({ consume_loop (p.states.length + 8)
          { p with line := l2, column := c2 } c with
         lookback := (c : Int) }, none) := by
  refine ⟨if c = 13 then p.line + 1
      else if c = 10 then (if p.lookback ≠ 13 then p.line + 1 else p.line)
      else p.line,
    if c = 13 then 0 else if c = 10 then 0 else p.column + 1, ?_⟩
  unfold janet_parser_consume
  rw [c3_cd p he hf]
  have hx : ¬ (10 : Nat) = 13 := by decide
  by_cases h13 : c = 13
  · simp only [h13, ite_true, reduceIte, eq_self_iff_true]
  · by_cases h10 : c = 10
    · simp only [h13, h10, hx, ite_true, ite_false, reduceIte,
        eq_self_iff_true, not_false_eq_true]
    · simp only [h13, h10, ite_true, ite_false, reduceIte, eq_self_iff_true,
        not_false_eq_true]

/-- Consume: a backtick inside the string body starts an end-candidate
run. -/
theorem c3_s_ibq (isB : Bool) (n : Nat) (B : List Nat)
    (p : JanetParser)
    (hsh : ClaimDefs.c3_shape (ClaimDefs.c3_fi isB) 0 n B p) :
    ∃ q, janet_parser_consume p 96 = (q, none) ∧
      ClaimDefs.c3_shape (ClaimDefs.c3_fe isB) 1 n B q := by
  obtain ⟨args, states, buf, error, lookback, line, col, pending, flag⟩ := p
  obtain ⟨he, hf, hb, hp, ha, l1, c1, cnt2, ra, l2, c2, hs⟩ := hsh
  subst he hf hb hp ha hs
  obtain ⟨lx, cx, hcons⟩ := c3_consume_split
    ⟨[], [⟨0, n, ClaimDefs.c3_fi isB, l1, c1, .longstring⟩,
      ⟨cnt2, ra, PFLAG_CONTAINER, l2, c2, .root⟩],
     buf, none, lookback, line, col, 0, false⟩ 96 rfl rfl
  simp only [List.length_cons, List.length_nil, Nat.reduceAdd] at hcons
  rw [show (10 : Nat) = 9 + 1 from rfl,
    c3_loop_t 9 _ 96 _ rfl
      (c3_d_ibq isB n buf lookback lx cx l1 c1 cnt2 ra l2 c2)] at hcons
  exact ⟨_, hcons, rfl, rfl, rfl, rfl, rfl, l1, c1, cnt2, ra, l2, c2, rfl⟩

/-- Consume: a non-backtick byte inside the string body is appended to
the content buffer. -/
theorem c3_s_ich (isB : Bool) (n : Nat) (B : List Nat) (c : Nat)
    (p : JanetParser) (hc : ¬ c = 96)
    (hsh : ClaimDefs.c3_shape (ClaimDefs.c3_fi isB) 0 n B p) :
    ∃ q, janet_parser_consume p c = (q, none) ∧
      ClaimDefs.c3_shape (ClaimDefs.c3_fi isB) 0 n (B ++ [c]) q := by
  obtain ⟨args, states, buf, error, lookback, line, col, pending, flag⟩ := p
  obtain ⟨he, hf, hb, hp, ha, l1, c1, cnt2, ra, l2, c2, hs⟩ := hsh
  subst he hf hb hp ha hs
  obtain ⟨lx, cx, hcons⟩ := c3_consume_split
    ⟨[], [⟨0, n, ClaimDefs.c3_fi isB, l1, c1, .longstring⟩,
      ⟨cnt2, ra, PFLAG_CONTAINER, l2, c2, .root⟩],
     buf, none, lookback, line, col, 0, false⟩ c rfl rfl
  simp only [List.length_cons, List.length_nil, Nat.reduceAdd] at hcons
  rw [show (10 : Nat) = 9 + 1 from rfl,
    c3_loop_t 9 _ c _ rfl
      (c3_d_ich isB n buf lookback lx cx l1 c1 cnt2 ra l2 c2 c hc)] at hcons
  exact ⟨_, hcons, rfl, rfl, rfl, rfl, rfl, l1, c1, cnt2, ra, l2, c2, rfl⟩

/-- Consume: a backtick extends a pending end-candidate run shorter than
the fence. -/
theorem c3_s_ebq (isB : Bool) (n j : Nat) (B : List Nat)
    (p : JanetParser) (hne : ¬ j = n) (hlt : j < n)
    (hsh : ClaimDefs.c3_shape (ClaimDefs.c3_fe isB) j n B p) :
    ∃ q, janet_parser_consume p 96 = (q, none) ∧
      ClaimDefs.c3_shape (ClaimDefs.c3_fe isB) (j + 1) n B q := by
  obtain ⟨args, states, buf, error, lookback, line, col, pending, flag⟩ := p
  obtain ⟨he, hf, hb, hp, ha, l1, c1, cnt2, ra, l2, c2, hs⟩ := hsh
  subst he hf hb hp ha hs
  obtain ⟨lx, cx, hcons⟩ := c3_consume_split
    ⟨[], [⟨j, n, ClaimDefs.c3_fe isB, l1, c1, .longstring⟩,
      ⟨cnt2, ra, PFLAG_CONTAINER, l2, c2, .root⟩],
     buf, none, lookback, line, col, 0, false⟩ 96 rfl rfl
  simp only [List.length_cons, List.length_nil, Nat.reduceAdd] at hcons
  rw [show (10 : Nat) = 9 + 1 from rfl,
    c3_loop_t 9 _ 96 _ rfl
      (c3_d_ebq isB n j buf lookback lx cx l1 c1 cnt2 ra l2 c2 hne
        hlt)] at hcons
  exact ⟨_, hcons, rfl, rfl, rfl, rfl, rfl, l1, c1, cnt2, ra, l2, c2, rfl⟩

/-- Consume: a non-backtick byte cancels a pending end-candidate run,
flushing the run and the byte to the content buffer. -/
theorem c3_s_erev (isB : Bool) (n j : Nat) (B : List Nat) (c : Nat)
    (p : JanetParser) (hne : ¬ j = n) (hc : ¬ c = 96)
    (hsh : ClaimDefs.c3_shape (ClaimDefs.c3_fe isB) j n B p) :
    ∃ q, janet_parser_consume p c = (q, none) ∧
      ClaimDefs.c3_shape (ClaimDefs.c3_fi isB) 0 n
        (B ++ List.replicate j 96 ++ [c]) q := by
  obtain ⟨args, states, buf, error, lookback, line, col, pending, flag⟩ := p
  obtain ⟨he, hf, hb, hp, ha, l1, c1, cnt2, ra, l2, c2, hs⟩ := hsh
  subst he hf hb hp ha hs
  obtain ⟨lx, cx, hcons⟩ := c3_consume_split
    ⟨[], [⟨j, n, ClaimDefs.c3_fe isB, l1, c1, .longstring⟩,
      ⟨cnt2, ra, PFLAG_CONTAINER, l2, c2, .root⟩],
     buf, none, lookback, line, col, 0, false⟩ c rfl rfl
  simp only [List.length_cons, List.length_nil, Nat.reduceAdd] at hcons
  rw [show (10 : Nat) = 9 + 1 from rfl,
    c3_loop_t 9 _ c _ rfl
      (c3_d_erev isB n j buf lookback lx cx l1 c1 cnt2 ra l2 c2 c hne
        hc)] at hcons
  exact ⟨_, hcons, rfl, rfl, rfl, rfl, rfl, l1, c1, cnt2, ra, l2, c2, rfl⟩

/-- Consume: the byte after the completed closing fence pops the string
value into the container below; the byte itself is eaten as whitespace
by the root consumer (stated for the space terminator). -/
theorem c3_s_eterm (isB : Bool) (n : Nat) (B : List Nat)
    (p : JanetParser)
    (hsh : ClaimDefs.c3_shape (ClaimDefs.c3_fe isB) n n B p) :
    ∃ q, janet_parser_consume p 32 = (q, none) ∧
      q.args = [(if isB then JanetV.buffer else JanetV.str)
        (longstring_strip B)] ∧
      q.pending = 1 ∧ q.error = none := by
  obtain ⟨args, states, buf, error, lookback, line, col, pending, flag⟩ := p
  obtain ⟨he, hf, hb, hp, ha, l1, c1, cnt2, ra, l2, c2, hs⟩ := hsh
  subst he hf hb hp ha hs
  obtain ⟨lx, cx, hcons⟩ := c3_consume_split
    ⟨[], [⟨n, n, ClaimDefs.c3_fe isB, l1, c1, .longstring⟩,
      ⟨cnt2, ra, PFLAG_CONTAINER, l2, c2, .root⟩],
     buf, none, lookback, line, col, 0, false⟩ 32 rfl rfl
  simp only [List.length_cons, List.length_nil, Nat.reduceAdd] at hcons
  rw [show (10 : Nat) = 9 + 1 from rfl,
    c3_loop_f 9 _ 32 _ rfl
      (c3_d_eterm isB n buf lookback lx cx l1 c1 cnt2 ra l2 c2),
    show (9 : Nat) = 8 + 1 from rfl,
    c3_loop_t 8 _ 32 _ rfl
      (c3_d_rootws _ ⟨cnt2, ra + 1, PFLAG_CONTAINER, l2, c2, .root⟩ []
        rfl rfl)] at hcons
  exact ⟨_, hcons, rfl, rfl, rfl⟩

/-- Consume: a backtick while reading the opening fence. -/
theorem c3_s_bbq (isB : Bool) (a : Nat) (B : List Nat)
    (p : JanetParser)
    (hsh : ClaimDefs.c3_shape (ClaimDefs.c3_fl isB) 0 a B p) :
    ∃ q, janet_parser_consume p 96 = (q, none) ∧
      ClaimDefs.c3_shape (ClaimDefs.c3_fl isB) 0 (a + 1) B q := by
  obtain ⟨args, states, buf, error, lookback, line, col, pending, flag⟩ := p
  obtain ⟨he, hf, hb, hp, ha, l1, c1, cnt2, ra, l2, c2, hs⟩ := hsh
  subst he hf hb hp ha hs
  obtain ⟨lx, cx, hcons⟩ := c3_consume_split
    ⟨[], [⟨0, a, ClaimDefs.c3_fl isB, l1, c1, .longstring⟩,
      ⟨cnt2, ra, PFLAG_CONTAINER, l2, c2, .root⟩],
     buf, none, lookback, line, col, 0, false⟩ 96 rfl rfl
  simp only [List.length_cons, List.length_nil, Nat.reduceAdd] at hcons
  rw [show (10 : Nat) = 9 + 1 from rfl,
    c3_loop_t 9 _ 96 _ rfl
      (c3_d_bbq isB a buf lookback lx cx l1 c1 cnt2 ra l2 c2)] at hcons
  exact ⟨_, hcons, rfl, rfl, rfl, rfl, rfl, l1, c1, cnt2, ra, l2, c2, rfl⟩

/-- Consume: the first body byte after the opening fence. -/
theorem c3_s_bch (isB : Bool) (a : Nat) (B : List Nat) (c : Nat)
    (p : JanetParser) (hc : ¬ c = 96)
    (hsh : ClaimDefs.c3_shape (ClaimDefs.c3_fl isB) 0 a B p) :
    ∃ q, janet_parser_consume p c = (q, none) ∧
      ClaimDefs.c3_shape (ClaimDefs.c3_fi isB) 0 (a + 1) (B ++ [c]) q := by
  obtain ⟨args, states, buf, error, lookback, line, col, pending, flag⟩ := p
  obtain ⟨he, hf, hb, hp, ha, l1, c1, cnt2, ra, l2, c2, hs⟩ := hsh
  subst he hf hb hp ha hs
  obtain ⟨lx, cx, hcons⟩ := c3_consume_split
    ⟨[], [⟨0, a, ClaimDefs.c3_fl isB, l1, c1, .longstring⟩,
      ⟨cnt2, ra, PFLAG_CONTAINER, l2, c2, .root⟩],
     buf, none, lookback, line, col, 0, false⟩ c rfl rfl
  simp only [List.length_cons, List.length_nil, Nat.reduceAdd] at hcons
  rw [show (10 : Nat) = 9 + 1 from rfl,
    c3_loop_t 9 _ c _ rfl
      (c3_d_bch isB a buf lookback lx cx l1 c1 cnt2 ra l2 c2 c hc)] at hcons
  exact ⟨_, hcons, rfl, rfl, rfl, rfl, rfl, l1, c1, cnt2, ra, l2, c2, rfl⟩

/-- An infix of a list is an infix of any left extension. -/
theorem c3_infix_ext {l t s : List Nat} (h : l <:+: t) : l <:+: s ++ t := by
  obtain ⟨u, v, huv⟩ := h
  exact ⟨s ++ u, v, by rw [← huv]; simp [List.append_assoc]⟩

/-- One accepted byte advances `parseBytes`. -/
theorem c3_pb (p q : JanetParser) (c : Nat) (cs : List Nat)
    (h : janet_parser_consume p c = (q, none)) :
    parseBytes p (c :: cs) = parseBytes q cs := by
  simp [parseBytes, h]

/-- Closing-fence run: from an end-candidate run of length `j` with
`j + k = n`, the remaining `k` fence backticks and the terminator finish
the string. -/
theorem c3_close_run (isB : Bool) (n : Nat) (k : Nat) :
    ∀ (j : Nat) (B : List Nat) (p : JanetParser), j + k = n → 1 ≤ j →
    ClaimDefs.c3_shape (ClaimDefs.c3_fe isB) j n B p →
    ∃ pf, parseBytes p (List.replicate k 96 ++ [32]) = (pf, none) ∧
      pf.args = [(if isB then JanetV.buffer else JanetV.str)
        (longstring_strip B)] ∧
      pf.pending = 1 := by
  induction k with
  | zero =>
    intro j B p hjk hj hsh
    have hjn : j = n := by omega
    subst hjn
    obtain ⟨q, hc, ha, hp, he⟩ := c3_s_eterm isB j B p hsh
    refine ⟨q, ?_, ha, hp⟩
    rw [List.replicate_zero, List.nil_append, c3_pb _ _ _ _ hc]
    rfl
  | succ k ih =>
    intro j B p hjk hj hsh
    have hne : ¬ j = n := by omega
    have hlt : j < n := by omega
    obtain ⟨q, hc, hsh2⟩ := c3_s_ebq isB n j B p hne hlt hsh
    rw [List.replicate_succ, List.cons_append, c3_pb _ _ _ _ hc]
    exact ih (j + 1) B q (by omega) (by omega) hsh2

/-- Body run: processing the remaining body bytes (with a pending
backtick run of length `j` already seen), then the closing fence and the
terminator, produces exactly the accumulated content. -/
theorem c3_body_run (isB : Bool) (n : Nat) (rest : List Nat) :
    ∀ (j : Nat) (B : List Nat) (p : JanetParser), j ≤ n →
    (¬ List.replicate n 96 <:+: (List.replicate j 96 ++ rest)) →
    (rest = [] → j = 0) →
    (rest.getLast? ≠ some 96) →
    ClaimDefs.c3_shape
      (if j = 0 then ClaimDefs.c3_fi isB else ClaimDefs.c3_fe isB) j n B p →
    ∃ pf, parseBytes p (rest ++ (List.replicate n 96 ++ [32])) =
        (pf, none) ∧
      pf.args = [(if isB then JanetV.buffer else JanetV.str)
        (longstring_strip (B ++ (List.replicate j 96 ++ rest)))] ∧
      pf.pending = 1 := by
  induction rest with
  | nil =>
    intro j B p hj hni hl0 hlast hsh
    have hj0 : j = 0 := hl0 rfl
    subst hj0
    rw [if_pos rfl] at hsh
    have hn1 : 1 ≤ n := by
      by_contra hcon
      have hn0 : n = 0 := by omega
      apply hni
      subst hn0
      simp
    obtain ⟨n', rfl⟩ : ∃ n', n = n' + 1 := ⟨n - 1, by omega⟩
    obtain ⟨q, hc, hsh2⟩ := c3_s_ibq isB (n' + 1) B p hsh
    rw [List.nil_append, List.replicate_succ, List.cons_append,
      c3_pb _ _ _ _ hc]
    obtain ⟨pf, hpf, ha, hp⟩ :=
      c3_close_run isB (n' + 1) n' 1 B q (by omega) (by omega) hsh2
    refine ⟨pf, hpf, ?_, hp⟩
    simpa using ha
  | cons d ds ih =>
    intro j B p hj hni hl0 hlast hsh
    have hlast2 : ds.getLast? ≠ some 96 := by
      cases ds with
      | nil => simp
      | cons e es =>
        rw [List.getLast?_cons_cons] at hlast
        exact hlast
    by_cases hj0 : j = 0
    · subst hj0
      rw [if_pos rfl] at hsh
      by_cases hd : d = 96
      · subst hd
        obtain ⟨q, hc, hsh2⟩ := c3_s_ibq isB n B p hsh
        rw [List.cons_append, c3_pb _ _ _ _ hc]
        have hni2 : ¬ List.replicate n 96 <:+:
            (List.replicate 1 96 ++ ds) := by
          simpa using hni
        have hl02 : ds = [] → (1 : Nat) = 0 := by
          intro hds
          subst hds
          simp at hlast
        have hjn : 1 ≤ n := by
          by_contra hcon
          have hn0 : n = 0 := by omega
          apply hni
          subst hn0
          simp
        have hsh3 : ClaimDefs.c3_shape
            (if 1 = 0 then ClaimDefs.c3_fi isB else ClaimDefs.c3_fe isB)
            1 n B q := by
          simpa using hsh2
        obtain ⟨pf, hpf, ha, hp⟩ :=
          ih 1 B q (by omega) hni2 hl02 hlast2 hsh3
        refine ⟨pf, hpf, ?_, hp⟩
        simpa using ha
      · obtain ⟨q, hc, hsh2⟩ := c3_s_ich isB n B d p hd hsh
        rw [List.cons_append, c3_pb _ _ _ _ hc]
        have hni2 : ¬ List.replicate n 96 <:+:
            (List.replicate 0 96 ++ ds) := by
          simp only [List.replicate_zero, List.nil_append] at hni ⊢
          intro h
          exact hni (List.infix_cons h)
        have hsh3 : ClaimDefs.c3_shape
            (if 0 = 0 then ClaimDefs.c3_fi isB else ClaimDefs.c3_fe isB)
            0 n (B ++ [d]) q := by
          simpa using hsh2
        obtain ⟨pf, hpf, ha, hp⟩ :=
          ih 0 (B ++ [d]) q (by omega) hni2 (fun _ => rfl) hlast2 hsh3
        refine ⟨pf, hpf, ?_, hp⟩
        simpa [List.append_assoc] using ha
    · rw [if_neg hj0] at hsh
      have hne : ¬ j = n := by
        intro hjn
        apply hni
        subst hjn
        exact (List.prefix_append _ _).isInfix
      have hlt : j < n := by omega
      by_cases hd : d = 96
      · subst hd
        obtain ⟨q, hc, hsh2⟩ := c3_s_ebq isB n j B p hne hlt hsh
        rw [List.cons_append, c3_pb _ _ _ _ hc]
        have hni2 : ¬ List.replicate n 96 <:+:
            (List.replicate (j + 1) 96 ++ ds) := by
          rw [List.replicate_succ']
          intro h
          apply hni
          simpa [List.append_assoc] using h
        have hl02 : ds = [] → j + 1 = 0 := by
          intro hds
          subst hds
          simp at hlast
        have hsh3 : ClaimDefs.c3_shape
            (if j + 1 = 0 then ClaimDefs.c3_fi isB
             else ClaimDefs.c3_fe isB) (j + 1) n B q := by
          simpa using hsh2
        obtain ⟨pf, hpf, ha, hp⟩ :=
          ih (j + 1) B q (by omega) hni2 hl02 hlast2 hsh3
        refine ⟨pf, hpf, ?_, hp⟩
        have hlist : B ++ (List.replicate (j + 1) 96 ++ ds) =
            B ++ (List.replicate j 96 ++ (96 :: ds)) := by
          rw [List.replicate_succ']
          simp [List.append_assoc]
        rw [hlist] at ha
        exact ha
      · obtain ⟨q, hc, hsh2⟩ := c3_s_erev isB n j B d p hne hd hsh
        rw [List.cons_append, c3_pb _ _ _ _ hc]
        have hni2 : ¬ List.replicate n 96 <:+:
            (List.replicate 0 96 ++ ds) := by
          simp only [List.replicate_zero, List.nil_append]
          intro h
          apply hni
          exact c3_infix_ext (List.infix_cons h)
        have hsh3 : ClaimDefs.c3_shape
            (if 0 = 0 then ClaimDefs.c3_fi isB else ClaimDefs.c3_fe isB)
            0 n (B ++ List.replicate j 96 ++ [d]) q := by
          simpa using hsh2
        obtain ⟨pf, hpf, ha, hp⟩ :=
          ih 0 (B ++ List.replicate j 96 ++ [d]) q (by omega) hni2
            (fun _ => rfl) hlast2 hsh3
        refine ⟨pf, hpf, ?_, hp⟩
        have hlist : (B ++ List.replicate j 96 ++ [d]) ++
            (List.replicate 0 96 ++ ds) =
            B ++ (List.replicate j 96 ++ (d :: ds)) := by
          simp [List.append_assoc]
        rw [hlist] at ha
        exact ha

/-- The first backtick from the initial state opens a long-string frame
on the root container frame. -/
theorem c3_open_plain :
    janet_parser_consume janet_parser_init 96 =
      (⟨[], [⟨0, 0, 16384, 1, 1, .longstring⟩, ⟨0, 0, 256, 1, 0, .root⟩],
        [], none, 96, 1, 1, 0, false⟩, none) := by rfl

theorem c3_open_plain_shape :
    ClaimDefs.c3_shape (ClaimDefs.c3_fl false) 0 0 []
      ⟨[], [⟨0, 0, 16384, 1, 1, .longstring⟩, ⟨0, 0, 256, 1, 0, .root⟩],
        [], none, 96, 1, 1, 0, false⟩ :=
  ⟨rfl, rfl, rfl, rfl, rfl, 1, 1, 0, 0, 1, 0, rfl⟩

/-- An `@` from the initial state opens the one-byte-lookahead frame. -/
theorem c3_open_at1 :
    janet_parser_consume janet_parser_init 64 =
      (⟨[], [⟨0, 0, 65536, 1, 1, .atsign⟩, ⟨0, 0, 256, 1, 0, .root⟩],
        [], none, 64, 1, 1, 0, false⟩, none) := by rfl

/-- A backtick after `@` opens a buffer-flavoured long-string frame. -/
theorem c3_open_at2 :
    janet_parser_consume
      ⟨[], [⟨0, 0, 65536, 1, 1, .atsign⟩, ⟨0, 0, 256, 1, 0, .root⟩],
        [], none, 64, 1, 1, 0, false⟩ 96 =
      (⟨[], [⟨0, 0, 16896, 1, 2, .longstring⟩, ⟨0, 0, 256, 1, 0, .root⟩],
        [], none, 96, 1, 2, 0, false⟩, none) := by rfl

theorem c3_open_at_shape :
    ClaimDefs.c3_shape (ClaimDefs.c3_fl true) 0 0 []
      ⟨[], [⟨0, 0, 16896, 1, 2, .longstring⟩, ⟨0, 0, 256, 1, 0, .root⟩],
        [], none, 96, 1, 2, 0, false⟩ :=
  ⟨rfl, rfl, rfl, rfl, rfl, 1, 2, 0, 0, 1, 0, rfl⟩

/-- Opening-fence run: each further backtick bumps the fence counter. -/
theorem c3_begin_run (isB : Bool) (m : Nat) :
    ∀ (a : Nat) (B : List Nat) (p : JanetParser),
    ClaimDefs.c3_shape (ClaimDefs.c3_fl isB) 0 a B p →
    ∃ q, (∀ rest2, parseBytes p (List.replicate m 96 ++ rest2) =
        parseBytes q rest2) ∧
      ClaimDefs.c3_shape (ClaimDefs.c3_fl isB) 0 (a + m) B q := by
  induction m with
  | zero =>
    intro a B p hsh
    exact ⟨p, fun rest2 => by simp, by simpa using hsh⟩
  | succ m ih =>
    intro a B p hsh
    obtain ⟨q, hc, hsh2⟩ := c3_s_bbq isB a B p hsh
    obtain ⟨q2, hpb, hsh3⟩ := ih (a + 1) B q hsh2
    refine ⟨q2, ?_, by
      have : a + 1 + m = a + (m + 1) := by omega
      rwa [this] at hsh3⟩
    intro rest2
    rw [List.replicate_succ, List.cons_append, c3_pb _ _ _ _ hc, hpb]

/-- The long-string stripping of `stringend` coincides with the one the
claim words (one leading and one trailing newline removed). -/
theorem c3_strip_spec (b : List Nat) :
    longstring_strip b = ClaimDefs.specLongContent b := by
  unfold longstring_strip ClaimDefs.specLongContent
  by_cases h : (if b.head? = some 10 then b.tail else b).getLast? = some 10
  · rw [if_pos h]
    have hne : (if b.head? = some 10 then b.tail else b) ≠ [] := by
      intro hcon
      rw [hcon] at h
      simp at h
    rw [if_pos ⟨List.length_pos.mpr hne, h⟩]
  · rw [if_neg h]
    rw [if_neg (by intro hcon; exact h hcon.2)]

/-- Main run from a freshly opened long-string frame: one opening
backtick has been consumed, `n'` more follow, then the body, the closing
fence and a space. -/
theorem c3_main_from_shape (isB : Bool) (n' : Nat) (body : List Nat)
    (p : JanetParser)
    (hsh : ClaimDefs.c3_shape (ClaimDefs.c3_fl isB) 0 0 [] p)
    (hb : body ≠ []) (hhead : body.head? ≠ some 96)
    (hlast : body.getLast? ≠ some 96)
    (hrun : ¬ List.replicate (n' + 1) 96 <:+: body) :
    ∃ pf, parseBytes p (List.replicate n' 96 ++ (body ++
        (List.replicate (n' + 1) 96 ++ [32]))) = (pf, none) ∧
      pf.args = [(if isB then JanetV.buffer else JanetV.str)
        (ClaimDefs.specLongContent body)] ∧
      pf.pending = 1 := by
  obtain ⟨b0, brest, rfl⟩ : ∃ b0 brest, body = b0 :: brest := by
    cases body with
    | nil => exact absurd rfl hb
    | cons b0 brest => exact ⟨b0, brest, rfl⟩
  have hb0 : ¬ b0 = 96 := by simpa using hhead
  obtain ⟨q2, hpb, hsh2⟩ := c3_begin_run isB n' 0 [] p hsh
  rw [hpb]
  obtain ⟨q3, hc3, hsh3⟩ := c3_s_bch isB (0 + n') [] b0 q2 hb0 hsh2
  rw [List.cons_append, c3_pb _ _ _ _ hc3]
  have hsh4 : ClaimDefs.c3_shape
      (if 0 = 0 then ClaimDefs.c3_fi isB else ClaimDefs.c3_fe isB)
      0 (n' + 1) [b0] q3 := by
    simpa using hsh3
  have hlast2 : brest.getLast? ≠ some 96 := by
    cases brest with
    | nil => simp
    | cons e es =>
      rw [List.getLast?_cons_cons] at hlast
      exact hlast
  have hni : ¬ List.replicate (n' + 1) 96 <:+:
      (List.replicate 0 96 ++ brest) := by
    simp only [List.replicate_zero, List.nil_append]
    intro h
    exact hrun (List.infix_cons h)
  obtain ⟨pf, hpf, ha, hp⟩ := c3_body_run isB (n' + 1) brest 0 [b0] q3
    (by omega) hni (fun _ => rfl) hlast2 hsh4
  refine ⟨pf, hpf, ?_, hp⟩
  rw [ha, c3_strip_spec]
  simp

/-- Claim C3: a long-string literal fenced by `n` backticks (optionally
under the `@` buffer prefix), whose body neither touches the fences with
further backticks nor contains a run of `n` backticks, parses to exactly
the body bytes, kept verbatim except that one leading and one trailing
newline adjacent to the fences are removed; the value is a string, or a
buffer under `@`. -/
theorem c3_longstring_content (isBuf : Bool) (n : Nat) (body : List Nat)
    (hn : 1 ≤ n) (hb : body ≠ [])
    (hhead : body.head? ≠ some 96) (hlast : body.getLast? ≠ some 96)
    (hrun : ¬ List.replicate n 96 <:+: body) :
    ∃ pf, CoreParse.parseBytes CoreParse.janet_parser_init
        ((if isBuf then [64] else []) ++ List.replicate n 96 ++ body ++
          List.replicate n 96 ++ [32]) = (pf, none) ∧
      pf.args = [(if isBuf then JanetValue.JanetV.buffer
          else JanetValue.JanetV.str)
        (ClaimDefs.specLongContent body)] ∧
      pf.pending = 1 := by
  obtain ⟨n', rfl⟩ : ∃ n', n = n' + 1 := ⟨n - 1, by omega⟩
  cases isBuf
  · simp only [Bool.false_eq_true, if_neg, ite_false, reduceIte,
      List.nil_append, List.append_assoc]
    rw [List.replicate_succ, List.cons_append,
      c3_pb _ _ _ _ c3_open_plain]
    exact c3_main_from_shape false n' body _ c3_open_plain_shape hb hhead
      hlast hrun
  · simp only [ite_true, reduceIte, List.append_assoc, List.cons_append,
      List.singleton_append, List.nil_append]
    rw [c3_pb _ _ _ _ c3_open_at1]
    rw [List.replicate_succ, List.cons_append,
      c3_pb _ _ _ _ c3_open_at2]
    exact c3_main_from_shape true n' body _ c3_open_at_shape hb hhead
      hlast hrun

end C3Infra

/-- Witness for `c3_longstring_content`: the string
(two-backtick fence) whose body is a newline, `h`, one backtick, `i` and
a newline; both adjacent newlines are stripped and the interior backtick
is kept. -/
theorem c3_witness :
    (1 ≤ 2 ∧ ([10, 104, 96, 105, 10] : List Nat) ≠ [] ∧
      ([10, 104, 96, 105, 10] : List Nat).head? ≠ some 96 ∧
      ([10, 104, 96, 105, 10] : List Nat).getLast? ≠ some 96 ∧
      ¬ List.replicate 2 96 <:+: ([10, 104, 96, 105, 10] : List Nat)) ∧
    (∃ pf, CoreParse.parseBytes CoreParse.janet_parser_init
        ((if false then [64] else []) ++ List.replicate 2 96 ++
          [10, 104, 96, 105, 10] ++ List.replicate 2 96 ++ [32]) =
        (pf, none) ∧
      pf.args = [(if false then JanetValue.JanetV.buffer
          else JanetValue.JanetV.str)
        (ClaimDefs.specLongContent [10, 104, 96, 105, 10])] ∧
      pf.pending = 1) :=
  ⟨⟨by decide, by decide, by decide, by decide, by decide⟩,
   c3_longstring_content false 2 [10, 104, 96, 105, 10] (by decide)
     (by decide) (by decide) (by decide) (by decide)⟩
